import Mathlib

set_option maxRecDepth 40000

/-!
# Verification of the vscode-docker .NET Core scaffolding engine

A shallow embedding of the repository's TypeScript sources:

* `src/configureWorkspace/configureDotNetCore.ts` — the Dockerfile template
  engine (`genDockerFile`, `scaffoldNetCore`, the image-format constants and
  the four Dockerfile templates);
* `dockerExtension.ts` — the activation wiring (`activate`);
* `src/tree/registries/azure/AzureAccountTreeItem.ts` — the bounded polling
  loop (`refreshNodeWhenAzureExtensionIsInstalled`).

Strings are modelled as Lean `String` / `List Char`.  JavaScript's
`String.prototype.replace` with a string pattern replaces the first
occurrence; with a `/.../g` regex of a literal token it replaces every
non-overlapping occurrence left to right, never rescanning the replacement
text.  Both are implemented below (`replaceFirstL`, `replaceAllL`).  The
JavaScript special `$`-sequences in replacement strings (`$$`, the
match-insertion sequence `$` followed by an ampersand, etc.) are not
modelled: they never differ from literal insertion on the replacement values
that occur in this code (image names, EXPOSE lines, path fragments), and in
particular they agree with literal insertion on every concrete input used in
a theorem below.
-/

namespace VSCodeDocker

/-- `dropPre pat s` returns `some r` when `s = pat ++ r`, i.e. when `pat` is a
prefix of `s`, and `none` otherwise. -/
def dropPre : List Char → List Char → Option (List Char)
  | [], s => some s
  | _ :: _, [] => none
  | p :: ps, c :: cs => if p = c then dropPre ps cs else none

theorem dropPre_append (p r : List Char) : dropPre p (p ++ r) = some r := by
  induction p with
  | nil => rfl
  | cons c cs ih => simp [dropPre, ih]

theorem dropPre_eq_some {p s r : List Char} (h : dropPre p s = some r) :
    s = p ++ r := by
  induction p generalizing s with
  | nil => simpa [dropPre] using h
  | cons c cs ih =>
    cases s with
    | nil => simp [dropPre] at h
    | cons d ds =>
      by_cases hc : c = d
      · subst hc
        simp only [dropPre, if_pos rfl] at h
        simpa using ih h
      · simp [dropPre, hc] at h

theorem length_of_dropPre {p s r : List Char} (h : dropPre p s = some r) :
    s.length = p.length + r.length := by
  rw [dropPre_eq_some h]; simp

/-- First-occurrence replacement: models the JavaScript
`s.replace(pat, repl)` with a plain string pattern. -/
def replaceFirstL (pat repl : List Char) : List Char → List Char
  | [] => []
  | c :: cs =>
    match dropPre pat (c :: cs) with
    | some rest => repl ++ rest
    | none => c :: replaceFirstL pat repl cs

/-- Replace-all worker, structurally recursive on a fuel argument so that the
kernel can evaluate it; `fuel ≥ s.length` always holds at the call sites
(each step consumes at least one character of `s` when the pattern is
nonempty). -/
def replaceAllF (pat repl : List Char) : Nat → List Char → List Char
  | 0, s => s
  | _ + 1, [] => []
  | fuel + 1, c :: cs =>
    match dropPre pat (c :: cs) with
    | some rest => repl ++ replaceAllF pat repl fuel rest
    | none => c :: replaceAllF pat repl fuel cs

/-- Replace-all: models the JavaScript `s.replace(/pat/g, repl)` for a
literal (escaped) nonempty pattern — leftmost, non-overlapping, and the
replacement text is never rescanned.  (An empty pattern never occurs at the
call sites in this code: all patterns are fixed tokens.) -/
def replaceAllL (pat repl s : List Char) : List Char :=
  match pat with
  | [] => s
  | _ :: _ => replaceAllF pat repl s.length s

theorem replaceAllF_fuel {pat repl : List Char} (hpat : pat ≠ [])
    (fuel₁ fuel₂ : Nat) (s : List Char)
    (h₁ : s.length ≤ fuel₁) (h₂ : s.length ≤ fuel₂) :
    replaceAllF pat repl fuel₁ s = replaceAllF pat repl fuel₂ s := by
  induction fuel₁ generalizing fuel₂ s with
  | zero =>
    have : s = [] := by
      cases s with
      | nil => rfl
      | cons c cs => simp at h₁
    subst this
    cases fuel₂ <;> rfl
  | succ f₁ ih =>
    cases s with
    | nil => cases fuel₂ <;> rfl
    | cons c cs =>
      cases fuel₂ with
      | zero => simp at h₂
      | succ f₂ =>
        simp only [replaceAllF]
        cases hd : dropPre pat (c :: cs) with
        | some rest =>
          have hlen := length_of_dropPre hd
          have hp : 1 ≤ pat.length := by
            cases pat with
            | nil => exact absurd rfl hpat
            | cons _ _ => simp
          simp only [List.length_cons] at hlen h₁ h₂
          show repl ++ replaceAllF pat repl f₁ rest = repl ++ replaceAllF pat repl f₂ rest
          rw [ih f₂ rest (by omega) (by omega)]
        | none =>
          simp only [List.length_cons] at h₁ h₂
          show c :: replaceAllF pat repl f₁ cs = c :: replaceAllF pat repl f₂ cs
          rw [ih f₂ cs (by omega) (by omega)]

theorem replaceAllL_nil (pat repl : List Char) : replaceAllL pat repl [] = [] := by
  cases pat <;> rfl

theorem replaceAllL_cons_match {pat : List Char} (repl : List Char)
    {c : Char} {cs rest : List Char} (hpat : pat ≠ [])
    (h : dropPre pat (c :: cs) = some rest) :
    replaceAllL pat repl (c :: cs) = repl ++ replaceAllL pat repl rest := by
  cases pat with
  | nil => exact absurd rfl hpat
  | cons p ps =>
    have hlen := length_of_dropPre h
    simp only [List.length_cons] at hlen
    have h1 : replaceAllL (p :: ps) repl (c :: cs)
        = replaceAllF (p :: ps) repl (cs.length + 1) (c :: cs) := rfl
    have h2 : replaceAllF (p :: ps) repl (cs.length + 1) (c :: cs)
        = repl ++ replaceAllF (p :: ps) repl cs.length rest := by
      simp only [replaceAllF, h]
    have h3 : replaceAllF (p :: ps) repl cs.length rest
        = replaceAllF (p :: ps) repl rest.length rest :=
      replaceAllF_fuel hpat _ _ rest (by omega) (le_refl _)
    rw [h1, h2, h3]
    rfl

theorem replaceAllL_cons_nomatch {pat : List Char} (repl : List Char)
    {c : Char} {cs : List Char} (hpat : pat ≠ [])
    (h : dropPre pat (c :: cs) = none) :
    replaceAllL pat repl (c :: cs) = c :: replaceAllL pat repl cs := by
  cases pat with
  | nil => exact absurd rfl hpat
  | cons p ps =>
    have h1 : replaceAllL (p :: ps) repl (c :: cs)
        = replaceAllF (p :: ps) repl (cs.length + 1) (c :: cs) := rfl
    have h2 : replaceAllF (p :: ps) repl (cs.length + 1) (c :: cs)
        = c :: replaceAllF (p :: ps) repl cs.length cs := by
      simp only [replaceAllF, h]
    rw [h1, h2]
    rfl

/-- Whether `pat` occurs as a contiguous substring of `s`. -/
def containsSub (pat : List Char) : List Char → Bool
  | [] => pat.isEmpty
  | c :: cs => (dropPre pat (c :: cs)).isSome || containsSub pat cs

/-- A character matched by the regex class `[a-z_]`. -/
def tokChar (c : Char) : Bool := (('a' ≤ c && c ≤ 'z') || c == '_')

/-- First match of the regex `/(\$[a-z_]+\$)/` in `s`, returned as the matched
text.  At a position holding `'$'` the greedy `[a-z_]+` consumes the maximal
run of token characters; the match succeeds exactly when that run is nonempty
and is followed by another `'$'` (backtracking to a shorter run cannot help,
since the run holds no `'$'`). -/
def findTokL : List Char → Option (List Char)
  | [] => none
  | c :: cs =>
    if c = '$' then
      let run := cs.takeWhile tokChar
      if !run.isEmpty && (cs.drop run.length).head? = some '$' then
        some ('$' :: (run ++ ['$']))
      else findTokL cs
    else findTokL cs

theorem findTokL_of_not_contains {s : List Char} (h : s.contains '$' = false) :
    findTokL s = none := by
  induction s with
  | nil => rfl
  | cons c cs ih =>
    simp only [List.contains_cons, Bool.or_eq_false_iff] at h
    have hc : ¬ c = '$' := by
      intro hc; subst hc; simp at h
    simp only [findTokL, if_neg hc]
    exact ih h.2

/-- Decimal digits of a natural number, least significant last; models the
JavaScript `Number.prototype.toString` on the (nonnegative integer) version
components that occur here.  Structurally recursive on a fuel argument
(`n + 1` steps always suffice, since the value shrinks by a factor of ten
each step). -/
def natDecimalF : Nat → Nat → List Char → List Char
  | 0, _, acc => acc
  | fuel + 1, n, acc =>
    if n < 10 then Char.ofNat (48 + n) :: acc
    else natDecimalF fuel (n / 10) (Char.ofNat (48 + n % 10) :: acc)

def natDecimal (n : Nat) : List Char := natDecimalF (n + 1) n []

theorem natDecimalF_chars (fuel : Nat) :
    ∀ (n : Nat) (acc : List Char),
      (∀ c ∈ acc, ∃ d, d < 10 ∧ c = Char.ofNat (48 + d)) →
      ∀ c ∈ natDecimalF fuel n acc, ∃ d, d < 10 ∧ c = Char.ofNat (48 + d) := by
  induction fuel with
  | zero => intro n acc hacc c hc; exact hacc c hc
  | succ f ih =>
    intro n acc hacc c hc
    simp only [natDecimalF] at hc
    split at hc
    · rcases List.mem_cons.mp hc with h | h
      · exact ⟨n, by omega, h⟩
      · exact hacc c h
    · refine ih (n / 10) _ ?_ c hc
      intro c' hc'
      rcases List.mem_cons.mp hc' with h | h
      · exact ⟨n % 10, Nat.mod_lt _ (by omega), h⟩
      · exact hacc c' h

theorem natDecimal_not_contains_dollar (n : Nat) :
    (natDecimal n).contains '$' = false := by
  rw [List.contains_eq_any_beq]
  rw [Bool.eq_false_iff]
  intro hany
  rw [List.any_eq_true] at hany
  obtain ⟨c, hc, hb⟩ := hany
  obtain ⟨d, hd, rfl⟩ := natDecimalF_chars (n + 1) n [] (by simp) c hc
  have : ('$' : Char) = Char.ofNat (48 + d) := eq_of_beq hb
  interval_cases d <;> simp_all

/-! ## The npm `semver` package, restricted to the inputs that occur here

`genDockerFile` only ever feeds `semver` strings made of decimal digits and
dots (the `TargetFramework` capture is `[0-9.]+`, the default is `"2.1"`, and
at most one `".0"` is appended).  On that domain `new semver.SemVer(v)` (and
hence `semver.gte` / `semver.lt`) succeeds exactly when the string is
`major.minor.patch` with each component a numeric identifier (`0`, or digits
without a leading zero), and throws `Invalid Version` otherwise. -/

structure SemVer where
  major : Nat
  minor : Nat
  patch : Nat
deriving DecidableEq

/-- A semver numeric identifier: nonempty, all digits, no leading zero. -/
def numericIdent : List Char → Bool
  | [] => false
  | c :: cs => c.isDigit && cs.all (fun d => d.isDigit) && (!(c = '0') || cs.isEmpty)

def digitsToNat (l : List Char) : Nat :=
  l.foldl (fun acc c => acc * 10 + (c.toNat - 48)) 0

/-- Split a character list on every occurrence of `sep` (the number of parts
is one more than the number of separators, as for `String.prototype.split`). -/
def splitOnCharL (sep : Char) : List Char → List (List Char)
  | [] => [[]]
  | c :: cs =>
    if c = sep then [] :: splitOnCharL sep cs
    else
      match splitOnCharL sep cs with
      | h :: t => (c :: h) :: t
      | [] => [[c]]

def semverParse (s : String) : Option SemVer :=
  match splitOnCharL '.' s.data with
  | [a, b, c] =>
    if numericIdent a && numericIdent b && numericIdent c then
      some ⟨digitsToNat a, digitsToNat b, digitsToNat c⟩
    else none
  | _ => none

/-- `semver.lt` on parsed versions (no prerelease components can occur). -/
def semverLt (a b : SemVer) : Bool :=
  a.major < b.major ||
    (a.major = b.major && (a.minor < b.minor ||
      (a.minor = b.minor && a.patch < b.patch)))

/-- `semver.gte a b` is `¬ semver.lt a b`. -/
def semverGte (a b : SemVer) : Bool := !semverLt a b

/-! ## Host OS predicates (`src/utils/osUtils.ts` is outside this snapshot)

The five predicates imported from `osUtils` are opaque booleans fixed by the
host machine; they are modelled as an abstract record so that every theorem
quantifies over the host state. -/

structure HostOS where
  isWindows : Bool
  isWindows1019H1OrNewer : Bool
  isWindows10RS5OrNewer : Bool
  isWindows10RS4OrNewer : Bool
  isWindows10RS3OrNewer : Bool
deriving DecidableEq

/-! ## configureDotNetCore.ts — constants -/

-- .NET Core 1.0 - 2.0 images are published to Docker Hub Registry.
def LegacyAspNetCoreRuntimeImageFormat : String := "microsoft/aspnetcore:{0}.{1}{2}"
def LegacyAspNetCoreSdkImageFormat : String := "microsoft/aspnetcore-build:{0}.{1}{2}"
def LegacyDotNetCoreRuntimeImageFormat : String := "microsoft/dotnet:{0}.{1}-runtime{2}"
def LegacyDotNetCoreSdkImageFormat : String := "microsoft/dotnet:{0}.{1}-sdk{2}"

-- .NET Core 2.1+ images are published to Microsoft Container Registry (MCR).
def DotNetCoreRuntimeImageFormat : String := "mcr.microsoft.com/dotnet/core/runtime:{0}.{1}{2}"
def AspNetCoreRuntimeImageFormat : String := "mcr.microsoft.com/dotnet/core/aspnet:{0}.{1}{2}"
def DotNetCoreSdkImageFormat : String := "mcr.microsoft.com/dotnet/core/sdk:{0}.{1}{2}"

/-- `GetWindowsImageTag` of configureDotNetCore.ts. -/
def GetWindowsImageTag (host : HostOS) : String :=
  if !host.isWindows || host.isWindows1019H1OrNewer then "-nanoserver-1903"
  else if host.isWindows10RS5OrNewer then "-nanoserver-1809"
  else if host.isWindows10RS4OrNewer then "-nanoserver-1803"
  else if host.isWindows10RS3OrNewer then "-nanoserver-1709"
  else "-nanoserver-sac2016"

def jsReplaceFirst (pat repl s : String) : String :=
  String.mk (replaceFirstL pat.data repl.data s.data)

def jsReplaceAll (pat repl s : String) : String :=
  String.mk (replaceAllL pat.data repl.data s.data)

def natDecimalS (n : Nat) : String := String.mk (natDecimal n)

/-- `formatVersion` of configureDotNetCore.ts: substitutes major, minor and
the Windows tag into an image-format string (JavaScript `replace` with a
string pattern: first occurrence; each `{i}` occurs once in every format).
`new semver.SemVer(version)` throws on an invalid version. -/
def formatVersion (format : String) (version : String) (tagForWindowsVersion : String) :
    Except String String :=
  match semverParse version with
  | none => .error ("Invalid Version: " ++ version)
  | some asSemVer =>
    .ok (jsReplaceFirst "{2}" tagForWindowsVersion
          (jsReplaceFirst "{1}" (natDecimalS asSemVer.minor)
            (jsReplaceFirst "{0}" (natDecimalS asSemVer.major) format)))

/-! ## Node `path.posix` primitives (the `path` module used by the source)

`scaffoldNetCore` converts every backslash to `/` before calling
`genDockerFile`, and the repository's tests run these paths through the posix
flavour; the posix algorithms of Node's `path` module are modelled here,
transcribed from its documented scan-from-the-right behaviour. -/

/-- `path.posix.basename(p)`: skip trailing slashes, then take the final
slash-free component. -/
def posixBasename (p : List Char) : List Char :=
  ((p.reverse.dropWhile (fun c => c = '/')).takeWhile (fun c => c ≠ '/')).reverse

/-- `path.posix.dirname(p)`: everything before the last slash that precedes
the final component; `'.'` when there is none; the slash at index 0 is never
such a separator (Node scans indices `≥ 1` only); `'//'` is preserved when
the separator found is at index 1 of a root-doubled path. -/
def posixDirname (p : List Char) : List Char :=
  if p = [] then ['.']
  else
    match (p.reverse.dropWhile (fun c => c = '/')).dropWhile (fun c => c ≠ '/') with
    | [] => if p.head? = some '/' then ['/'] else ['.']
    | _ :: rest =>
      if rest = [] then ['/']
      else if p.head? = some '/' ∧ rest.length = 1 then ['/', '/']
      else rest.reverse

def posixBasenameS (p : String) : String := String.mk (posixBasename p.data)
def posixDirnameS (p : String) : String := String.mk (posixDirname p.data)

/-! ## Helpers of configureDotNetCore.ts that live in files outside src/ -/

/-- Modelled from the spec: the scaffolding generator's template-token table
includes an "exposed ports" token; `getExposeStatements` (from
`configureWorkspace/configure.ts`, not part of this snapshot) renders one
`EXPOSE <port>` line per port, newline-separated, and the empty string when
the ports argument is `undefined`. -/
def exposeLines : List Nat → List Char
  | [] => []
  | [p] => "EXPOSE ".data ++ natDecimal p
  | p :: rest => "EXPOSE ".data ++ natDecimal p ++ '\n' :: exposeLines rest

def getExposeStatements (ports : Option (List Nat)) : String :=
  match ports with
  | none => ""
  | some ps => String.mk (exposeLines ps)

/-- Modelled from the spec: `extractRegExGroups(version, /^netcoreapp([0-9.]+)$/,
[default])` (the utility lives in `src/utils/extractRegExGroups.ts`, outside
this snapshot) returns the capture when the anchored regex matches and the
default otherwise.  The anchored match succeeds exactly when the string is
`netcoreapp` followed by a nonempty run of digits and dots. -/
def matchNetCoreApp (version : String) : Option String :=
  match dropPre "netcoreapp".data version.data with
  | none => none
  | some rest =>
    if !rest.isEmpty && rest.all (fun c => c.isDigit || c = '.') then
      some (String.mk rest)
    else none

/-- The regex `/^[^.]+\.[^.]+$/` of configureDotNetCore.ts: exactly one dot,
with nonempty text on both sides. -/
def hasMajorMinorOnly (s : String) : Bool :=
  match splitOnCharL '.' s.data with
  | [a, b] => !a.isEmpty && !b.isEmpty
  | _ => false

/-! ## The four Dockerfile templates (configureDotNetCore.ts lines 66-161) -/

def aspNetCoreWindowsTemplate : String :=
  "#Depending on the operating system of the host machines(s) that will build or run the containers, the image specified in the FROM statement may need to be changed.\n#For more information, please see https://aka.ms/containercompat\n\nFROM $base_image_name$ AS base\nWORKDIR /app\n$expose_statements$\n\nFROM $sdk_image_name$ AS build\nWORKDIR /src\n$copy_project_commands$\nRUN dotnet restore \"$container_project_directory$/$project_file_name$\"\nCOPY . .\nWORKDIR \"/src/$container_project_directory$\"\nRUN dotnet build \"$project_file_name$\" -c Release -o /app/build\n\nFROM build AS publish\nRUN dotnet publish \"$project_file_name$\" -c Release -o /app/publish\n\nFROM base AS final\nWORKDIR /app\nCOPY --from=publish /app/publish .\nENTRYPOINT [\"dotnet\", \"$assembly_name$.dll\"]\n"

def aspNetCoreLinuxTemplate : String :=
  "FROM $base_image_name$ AS base\nWORKDIR /app\n$expose_statements$\n\nFROM $sdk_image_name$ AS build\nWORKDIR /src\n$copy_project_commands$\nRUN dotnet restore \"$container_project_directory$/$project_file_name$\"\nCOPY . .\nWORKDIR \"/src/$container_project_directory$\"\nRUN dotnet build \"$project_file_name$\" -c Release -o /app/build\n\nFROM build AS publish\nRUN dotnet publish \"$project_file_name$\" -c Release -o /app/publish\n\nFROM base AS final\nWORKDIR /app\nCOPY --from=publish /app/publish .\nENTRYPOINT [\"dotnet\", \"$assembly_name$.dll\"]\n"

def dotNetCoreConsoleWindowsTemplate : String :=
  "#Depending on the operating system of the host machines(s) that will build or run the containers, the image specified in the FROM statement may need to be changed.\n#For more information, please see https://aka.ms/containercompat\n\nFROM $base_image_name$ AS base\nWORKDIR /app\n$expose_statements$\n\nFROM $sdk_image_name$ AS build\nWORKDIR /src\n$copy_project_commands$\nRUN dotnet restore \"$container_project_directory$/$project_file_name$\"\nCOPY . .\nWORKDIR \"/src/$container_project_directory$\"\nRUN dotnet build \"$project_file_name$\" -c Release -o /app/build\n\nFROM build AS publish\nRUN dotnet publish \"$project_file_name$\" -c Release -o /app/publish\n\nFROM base AS final\nWORKDIR /app\nCOPY --from=publish /app/publish .\nENTRYPOINT [\"dotnet\", \"$assembly_name$.dll\"]\n"

def dotNetCoreConsoleLinuxTemplate : String :=
  "FROM $base_image_name$ AS base\nWORKDIR /app\n$expose_statements$\n\nFROM $sdk_image_name$ AS build\nWORKDIR /src\n$copy_project_commands$\nRUN dotnet restore \"$container_project_directory$/$project_file_name$\"\nCOPY . .\nWORKDIR \"/src/$container_project_directory$\"\nRUN dotnet build \"$project_file_name$\" -c Release -o /app/build\n\nFROM build AS publish\nRUN dotnet publish \"$project_file_name$\" -c Release -o /app/publish\n\nFROM base AS final\nWORKDIR /app\nCOPY --from=publish /app/publish .\nENTRYPOINT [\"dotnet\", \"$assembly_name$.dll\"]\n"

/-! ## genDockerFile (configureDotNetCore.ts lines 165-258)

Thrown JavaScript errors (the `Unexpected OS` throw, `semver`'s
`Invalid Version` TypeError, the two `assert.fail` calls, and the
`Unexpected platform` throw) are modelled as `Except.error` with the
corresponding message. -/

/-- `${os}` in a template literal prints `undefined` for the undefined
value. -/
def osString (os : Option String) : String := os.getD "undefined"

/-- Lines 192-218: select the base and SDK image formats from the platform
and the parsed .NET Core version; `none` models `assert.fail` on an unknown
platform. -/
def selectImageFormats (platform : String) (v : SemVer) : Option (String × String) :=
  if semverGte v ⟨2, 1, 0⟩ then
    if platform = "ASP.NET Core" then
      some (AspNetCoreRuntimeImageFormat, DotNetCoreSdkImageFormat)
    else if platform = ".NET Core Console" then
      some (DotNetCoreRuntimeImageFormat, DotNetCoreSdkImageFormat)
    else none
  else
    if platform = "ASP.NET Core" then
      some (LegacyAspNetCoreRuntimeImageFormat, LegacyAspNetCoreSdkImageFormat)
    else if platform = ".NET Core Console" then
      some (LegacyDotNetCoreRuntimeImageFormat, LegacyDotNetCoreSdkImageFormat)
    else none

/-- Lines 220-227: empty tag when targeting Linux or .NET Core < 2.0,
otherwise the nanoserver tag matching the host Windows build. -/
def tagForWindowsVersionOf (host : HostOS) (os : Option String) (v : SemVer) : String :=
  if os = some "Linux" || semverLt v ⟨2, 0, 0⟩ then "" else GetWindowsImageTag host

/-- Lines 232-242: the template switch; `none` models the
`Unexpected platform` throw (unreachable after `selectImageFormats`). -/
def selectTemplate (platform : String) (os : Option String) : Option String :=
  if platform = ".NET Core Console" then
    some (if os = some "Linux" then dotNetCoreConsoleLinuxTemplate
          else dotNetCoreConsoleWindowsTemplate)
  else if platform = "ASP.NET Core" then
    some (if os = some "Linux" then aspNetCoreLinuxTemplate
          else aspNetCoreWindowsTemplate)
  else none

/-- Lines 244-250: the replacement chain, in source order (the base-image
token with a string pattern — first occurrence — and the rest with `/g`
regexes). -/
def applyTemplateReplacements (baseImageName exposeStatements sdkImageName
    projectDirectory projectFileName assemblyName copyProjectCommands
    template : String) : String :=
  jsReplaceAll "$copy_project_commands$" copyProjectCommands
    (jsReplaceAll "$assembly_name$" assemblyName
      (jsReplaceAll "$project_file_name$" projectFileName
        (jsReplaceAll "$container_project_directory$" projectDirectory
          (jsReplaceAll "$sdk_image_name$" sdkImageName
            (jsReplaceAll "$expose_statements$" exposeStatements
              (jsReplaceFirst "$base_image_name$" baseImageName template))))))

/-- The composite of lines 184-190: default the version to `"2.1"` when the
`TargetFramework` value does not match `^netcoreapp([0-9.]+)$`, and append
`".0"` when the capture is bare `major.minor`. -/
def netCoreAppVersionOf (version : String) : String :=
  let v0 := (matchNetCoreApp version).getD "2.1"
  if hasMajorMinorOnly v0 then v0 ++ ".0" else v0

/-- Lines 252-257: the final check over the substituted contents — the
`assert.fail` throw when a `$[a-z_]+$` token survives, and the normal return
otherwise.  (The thrown message interpolates the one-element group array,
which prints as the token itself.) -/
def renderDockerFile (baseImageName exposeStatements sdkImageName
    projectDirectory projectFileName assemblyName copyProjectCommands
    template : String) : Except String String :=
  match findTokL (applyTemplateReplacements baseImageName exposeStatements
    sdkImageName projectDirectory projectFileName assemblyName
    copyProjectCommands template).data with
  | some t => .error ("Unreplaced template token \"" ++ String.mk t ++ "\"")
  | none => .ok (applyTemplateReplacements baseImageName exposeStatements
      sdkImageName projectDirectory projectFileName assemblyName
      copyProjectCommands template)

/-- `genDockerFile` (lines 165-258).  The source's local bindings
(`serviceName`, `projectDirectory`, `projectFileName`,
`assemblyNameNoExtension` — equal to `serviceName`, since the project folder
must not appear in the assembly name — `copyProjectCommands`,
`exposeStatements`, `netCoreAppVersion` and `tagForWindowsVersion`) are
inlined at their use sites. -/
def genDockerFile (serviceNameAndRelativePath : String) (platform : String)
    (os : Option String) (ports : Option (List Nat)) (version : String)
    (artifactName : String) (host : HostOS) : Except String String :=
  if os ≠ some "Windows" ∧ os ≠ some "Linux" then
    .error ("Unexpected OS \"" ++ osString os ++ "\"")
  else
    match semverParse (netCoreAppVersionOf version) with
    | none => .error ("Invalid Version: " ++ netCoreAppVersionOf version)
    | some v =>
      match selectImageFormats platform v with
      | none => .error "Unknown platform"
      | some (baseImageFormat, sdkImageNameFormat) =>
        match formatVersion baseImageFormat (netCoreAppVersionOf version)
                (tagForWindowsVersionOf host os v),
              formatVersion sdkImageNameFormat (netCoreAppVersionOf version)
                (tagForWindowsVersionOf host os v) with
        | .error e, _ => .error e
        | _, .error e => .error e
        | .ok baseImageName, .ok sdkImageName =>
          match selectTemplate platform os with
          | none => .error ("Unexpected platform \"" ++ platform ++ "\"")
          | some template =>
            renderDockerFile baseImageName (getExposeStatements ports)
              sdkImageName (posixDirnameS serviceNameAndRelativePath)
              (posixBasenameS artifactName)
              (posixBasenameS serviceNameAndRelativePath)
              ("COPY [\"" ++ artifactName ++ "\", \""
                ++ posixDirnameS serviceNameAndRelativePath ++ "/\"]")
              template

/-! ## Token/literal decompositions of template strings

To reason about the replacement chain on a template with symbolic
replacement values, a template is decomposed into pieces: dollar-free
literal segments and `$...$` tokens with `[a-z_]` interiors.  The key
theorems state that `replaceFirstL`/`replaceAllL` of one token over the
rendered string acts piecewise, provided the literal run between any two
tokens contains a character outside `[a-z_]` (so that no pattern can match
starting at the closing `'$'` of a different token). -/

inductive Piece where
  | lit : List Char → Piece
  | tok : List Char → Piece
deriving DecidableEq

def render : List Piece → List Char
  | [] => []
  | Piece.lit l :: r => l ++ render r
  | Piece.tok t :: r => '$' :: (t ++ '$' :: render r)

def pieceOk : Piece → Bool
  | .lit l => !l.contains '$'
  | .tok t => !t.isEmpty && t.all tokChar

def leadLits : List Piece → List Char
  | [] => []
  | .lit l :: r => l ++ leadLits r
  | .tok _ :: _ => []

def hasTokPiece : List Piece → Bool
  | [] => false
  | .lit _ :: r => hasTokPiece r
  | .tok _ :: _ => true

/-- The separation condition: each token is followed (through the literal
run up to the next token, if any) by a character outside `[a-z_]`. -/
def sepOk : List Piece → Bool
  | [] => true
  | .lit _ :: r => sepOk r
  | .tok _ :: r =>
    (!hasTokPiece r || (leadLits r).any (fun c => !tokChar c)) && sepOk r

def substTok (i repl : List Char) : List Piece → List Piece
  | [] => []
  | .lit l :: r => .lit l :: substTok i repl r
  | .tok t :: r => (if t = i then .lit repl else .tok t) :: substTok i repl r

def substFirstTok (i repl : List Char) : List Piece → List Piece
  | [] => []
  | .lit l :: r => .lit l :: substFirstTok i repl r
  | .tok t :: r => if t = i then .lit repl :: r else .tok t :: substFirstTok i repl r

def tokInteriors : List Piece → List (List Char)
  | [] => []
  | .lit _ :: r => tokInteriors r
  | .tok t :: r => t :: tokInteriors r

def removeAllEq (i : List Char) : List (List Char) → List (List Char)
  | [] => []
  | t :: r => if t = i then removeAllEq i r else t :: removeAllEq i r

def removeFirstEq (i : List Char) : List (List Char) → List (List Char)
  | [] => []
  | t :: r => if t = i then r else t :: removeFirstEq i r

def afterLits : List Piece → List Piece
  | [] => []
  | .lit _ :: r => afterLits r
  | .tok t :: r => .tok t :: r

theorem tokChar_ne_dollar {c : Char} (h : tokChar c = true) : c ≠ '$' := by
  intro heq
  subst heq
  exact absurd h (by decide)

theorem contains_false_iff (l : List Char) (a : Char) :
    l.contains a = false ↔ a ∉ l := by
  rw [← Bool.not_eq_true, List.contains_eq_any_beq]
  simp [List.any_eq_true]

theorem render_eq_leadLits (ps : List Piece) :
    render ps = leadLits ps ++ render (afterLits ps) := by
  induction ps with
  | nil => rfl
  | cons p r ih =>
    cases p with
    | lit l => simp [render, leadLits, afterLits, ih, List.append_assoc]
    | tok t => simp [leadLits, afterLits]

theorem afterLits_of_hasTokPiece_false {ps : List Piece}
    (h : hasTokPiece ps = false) : afterLits ps = [] := by
  induction ps with
  | nil => rfl
  | cons p r ih =>
    cases p with
    | lit l => exact ih h
    | tok t => simp [hasTokPiece] at h

theorem afterLits_shape (ps : List Piece) :
    afterLits ps = [] ∨ ∃ t r, afterLits ps = Piece.tok t :: r := by
  induction ps with
  | nil => exact Or.inl rfl
  | cons p r ih =>
    cases p with
    | lit l => exact ih
    | tok t => exact Or.inr ⟨t, r, rfl⟩

theorem leadLits_noDollar {ps : List Piece} (hall : ps.all pieceOk = true) :
    '$' ∉ leadLits ps := by
  induction ps with
  | nil => simp [leadLits]
  | cons p r ih =>
    rw [List.all_cons, Bool.and_eq_true] at hall
    cases p with
    | lit l =>
      simp only [leadLits, List.mem_append]
      rintro (h | h)
      · have := hall.1
        simp only [pieceOk, Bool.not_eq_true'] at this
        exact absurd h ((contains_false_iff l '$').mp this)
      · exact ih hall.2 h
    | tok t => simp [leadLits]

/-- No match of the pattern `i ++ "$"` can start inside a dollar-free
literal `L`, nor continue into the following text when `L` either ends the
string or is followed by a `'$'` while containing a non-token character. -/
theorem dropPre_sep_none {i : List Char} (hi : i.all tokChar = true) :
    ∀ {L sfx : List Char}, '$' ∉ L →
      (sfx = [] ∨ (sfx.head? = some '$' ∧ (L.any (fun c => !tokChar c)) = true)) →
      dropPre (i ++ ['$']) (L ++ sfx) = none := by
  intro L
  induction L generalizing i with
  | nil =>
    intro sfx _ hsfx
    rcases hsfx with rfl | ⟨hhead, hany⟩
    · cases i <;> rfl
    · simp at hany
  | cons c L' ih =>
    intro sfx hL hsfx
    have hcne : c ≠ '$' := by
      intro heq; exact hL (heq ▸ List.mem_cons_self c L')
    cases i with
    | nil =>
      simp only [List.nil_append, List.cons_append, dropPre]
      rw [if_neg (fun h : '$' = c => hcne h.symm)]
    | cons a as =>
      rw [List.all_cons, Bool.and_eq_true] at hi
      simp only [List.cons_append, dropPre]
      by_cases hac : a = c
      · subst hac
        rw [if_pos rfl]
        refine ih hi.2 (fun h => hL (List.mem_cons_of_mem _ h)) ?_
        rcases hsfx with rfl | ⟨hhead, hany⟩
        · exact Or.inl rfl
        · refine Or.inr ⟨hhead, ?_⟩
          rw [List.any_cons, Bool.or_eq_true] at hany
          rcases hany with h | h
          · rw [Bool.not_eq_true'] at h
            exact absurd hi.1 (by simp [h])
          · exact h
      · rw [if_neg hac]


/-- The pattern for interior `i` cannot match at the opening `'$'` of a
token with a different interior `t` (both interiors being `[a-z_]`-runs). -/
theorem dropPre_tok_ne {i : List Char} (hi : i.all tokChar = true) :
    ∀ {t : List Char}, t.all tokChar = true → t ≠ i →
      ∀ rest, dropPre (i ++ ['$']) (t ++ '$' :: rest) = none := by
  induction i with
  | nil =>
    intro t ht hne rest
    cases t with
    | nil => exact absurd rfl hne
    | cons c cs =>
      rw [List.all_cons, Bool.and_eq_true] at ht
      have := tokChar_ne_dollar ht.1
      simp only [List.nil_append, List.cons_append, dropPre]
      rw [if_neg (fun h : '$' = c => this h.symm)]
  | cons a as ih =>
    intro t ht hne rest
    rw [List.all_cons, Bool.and_eq_true] at hi
    cases t with
    | nil =>
      have := tokChar_ne_dollar hi.1
      simp only [List.nil_append, List.cons_append, dropPre]
      rw [if_neg this]
    | cons c cs =>
      rw [List.all_cons, Bool.and_eq_true] at ht
      simp only [List.cons_append, dropPre]
      by_cases hac : a = c
      · subst hac
        rw [if_pos rfl]
        exact ih hi.2 ht.2 (fun h => hne (by rw [h])) rest
      · rw [if_neg hac]

/-- Skipping a dollar-free literal: neither replacement function can match
inside it, since every pattern starts with `'$'`. -/
theorem replaceAllL_skip_lit {i repl : List Char} :
    ∀ {l : List Char}, '$' ∉ l → ∀ rest,
      replaceAllL ('$' :: i) repl (l ++ rest)
        = l ++ replaceAllL ('$' :: i) repl rest := by
  intro l
  induction l with
  | nil => intro _ rest; simp
  | cons c l' ih =>
    intro hl rest
    have hc : c ≠ '$' := fun h => hl (h ▸ List.mem_cons_self c l')
    have hd : dropPre ('$' :: i) (c :: (l' ++ rest)) = none := by
      simp only [dropPre]
      rw [if_neg (fun h : '$' = c => hc h.symm)]
    rw [List.cons_append, replaceAllL_cons_nomatch repl (List.cons_ne_nil _ _) hd,
      ih (fun h => hl (List.mem_cons_of_mem _ h)) rest]
    rfl

theorem replaceFirstL_skip_lit {i repl : List Char} :
    ∀ {l : List Char}, '$' ∉ l → ∀ rest,
      replaceFirstL ('$' :: i) repl (l ++ rest)
        = l ++ replaceFirstL ('$' :: i) repl rest := by
  intro l
  induction l with
  | nil => intro _ rest; simp
  | cons c l' ih =>
    intro hl rest
    have hc : c ≠ '$' := fun h => hl (h ▸ List.mem_cons_self c l')
    have hd : dropPre ('$' :: i) (c :: (l' ++ rest)) = none := by
      simp only [dropPre]
      rw [if_neg (fun h : '$' = c => hc h.symm)]
    rw [List.cons_append]
    simp only [replaceFirstL, hd]
    rw [ih (fun h => hl (List.mem_cons_of_mem _ h)) rest]
    rfl

/-- Skipping a foreign token's interior and closing `'$'`, once matching at
the closing `'$'` is known to be blocked. -/
theorem replaceAllL_skip_tok {i repl : List Char} :
    ∀ {t : List Char}, t.all tokChar = true →
      ∀ {rest : List Char}, dropPre (i ++ ['$']) rest = none →
      replaceAllL ('$' :: (i ++ ['$'])) repl (t ++ '$' :: rest)
        = t ++ '$' :: replaceAllL ('$' :: (i ++ ['$'])) repl rest := by
  intro t
  induction t with
  | nil =>
    intro _ rest hblock
    have hd : dropPre ('$' :: (i ++ ['$'])) ('$' :: rest) = none := by
      simp [dropPre, hblock]
    rw [List.nil_append, replaceAllL_cons_nomatch repl (List.cons_ne_nil _ _) hd]
    rfl
  | cons c t' ih =>
    intro ht rest hblock
    rw [List.all_cons, Bool.and_eq_true] at ht
    have hc := tokChar_ne_dollar ht.1
    have hd : dropPre ('$' :: (i ++ ['$'])) (c :: (t' ++ '$' :: rest)) = none := by
      simp only [dropPre]
      rw [if_neg (fun h : '$' = c => hc h.symm)]
    rw [List.cons_append, replaceAllL_cons_nomatch repl (List.cons_ne_nil _ _) hd,
      ih ht.2 hblock]
    rfl

theorem replaceFirstL_skip_tok {i repl : List Char} :
    ∀ {t : List Char}, t.all tokChar = true →
      ∀ {rest : List Char}, dropPre (i ++ ['$']) rest = none →
      replaceFirstL ('$' :: (i ++ ['$'])) repl (t ++ '$' :: rest)
        = t ++ '$' :: replaceFirstL ('$' :: (i ++ ['$'])) repl rest := by
  intro t
  induction t with
  | nil =>
    intro _ rest hblock
    have hd : dropPre ('$' :: (i ++ ['$'])) ('$' :: rest) = none := by
      simp [dropPre, hblock]
    rw [List.nil_append]
    simp only [replaceFirstL, hd]
    rfl
  | cons c t' ih =>
    intro ht rest hblock
    rw [List.all_cons, Bool.and_eq_true] at ht
    have hc := tokChar_ne_dollar ht.1
    have hd : dropPre ('$' :: (i ++ ['$'])) (c :: (t' ++ '$' :: rest)) = none := by
      simp only [dropPre]
      rw [if_neg (fun h : '$' = c => hc h.symm)]
    rw [List.cons_append]
    simp only [replaceFirstL, hd]
    rw [ih ht.2 hblock]
    rfl

/-- Matching the pattern at the closing `'$'` of the preceding token is
blocked by the separation condition on the following pieces. -/
theorem dropPre_render_blocked {i : List Char} (hi : i.all tokChar = true)
    {r : List Piece} (hall : r.all pieceOk = true)
    (hsep : (!hasTokPiece r || (leadLits r).any (fun c => !tokChar c)) = true) :
    dropPre (i ++ ['$']) (render r) = none := by
  rw [render_eq_leadLits]
  cases htp : hasTokPiece r with
  | false =>
    rw [afterLits_of_hasTokPiece_false htp]
    exact dropPre_sep_none hi (leadLits_noDollar hall) (Or.inl rfl)
  | true =>
    rw [htp] at hsep
    simp only [Bool.not_true, Bool.false_or] at hsep
    rcases afterLits_shape r with hnil | hcons
    · rw [hnil]
      exact dropPre_sep_none hi (leadLits_noDollar hall) (Or.inl rfl)
    · obtain ⟨t, r', heq⟩ := hcons
      rw [heq]
      exact dropPre_sep_none hi (leadLits_noDollar hall)
        (Or.inr ⟨by simp [render], hsep⟩)

/-- Main theorem: replace-all of one token over a rendered, well-separated
piece list substitutes exactly the matching tokens. -/
theorem replaceAllL_render {i repl : List Char} (hi : i.all tokChar = true) :
    ∀ {ps : List Piece}, ps.all pieceOk = true → sepOk ps = true →
      replaceAllL ('$' :: (i ++ ['$'])) repl (render ps)
        = render (substTok i repl ps) := by
  intro ps
  induction ps with
  | nil => intro _ _; exact replaceAllL_nil _ _
  | cons p r ih =>
    intro hall hsep
    rw [List.all_cons, Bool.and_eq_true] at hall
    cases p with
    | lit l =>
      have hl : '$' ∉ l := by
        have := hall.1
        simp only [pieceOk, Bool.not_eq_true'] at this
        exact (contains_false_iff l '$').mp this
      show replaceAllL ('$' :: (i ++ ['$'])) repl (l ++ render r)
          = l ++ render (substTok i repl r)
      rw [replaceAllL_skip_lit hl, ih hall.2 hsep]
    | tok t =>
      rw [sepOk, Bool.and_eq_true] at hsep
      simp only [pieceOk, Bool.and_eq_true] at hall
      by_cases hti : t = i
      · subst hti
        have hmatch : dropPre ('$' :: (t ++ ['$'])) ('$' :: (t ++ '$' :: render r))
            = some (render r) := by
          have heq : '$' :: (t ++ '$' :: render r)
              = ('$' :: (t ++ ['$'])) ++ render r := by
            simp [List.append_assoc]
          rw [heq, dropPre_append]
        show replaceAllL ('$' :: (t ++ ['$'])) repl ('$' :: (t ++ '$' :: render r))
            = render ((if t = t then Piece.lit repl else Piece.tok t) :: substTok t repl r)
        rw [if_pos rfl,
          replaceAllL_cons_match repl (List.cons_ne_nil _ _) hmatch,
          ih hall.2 hsep.2]
        rfl
      · have hblock : dropPre (i ++ ['$']) (render r) = none :=
          dropPre_render_blocked hi hall.2 hsep.1
        have hd : dropPre ('$' :: (i ++ ['$'])) ('$' :: (t ++ '$' :: render r))
            = none := by
          simp only [dropPre, if_pos rfl]
          exact dropPre_tok_ne hi hall.1.2 hti (render r)
        show replaceAllL ('$' :: (i ++ ['$'])) repl ('$' :: (t ++ '$' :: render r))
            = render ((if t = i then Piece.lit repl else Piece.tok t) :: substTok i repl r)
        rw [if_neg hti, replaceAllL_cons_nomatch repl (List.cons_ne_nil _ _) hd,
          replaceAllL_skip_tok hall.1.2 hblock, ih hall.2 hsep.2]
        rfl

/-- Main theorem, first-occurrence version: `replaceFirstL` of one token
substitutes exactly the first matching token. -/
theorem replaceFirstL_render {i repl : List Char} (hi : i.all tokChar = true) :
    ∀ {ps : List Piece}, ps.all pieceOk = true → sepOk ps = true →
      replaceFirstL ('$' :: (i ++ ['$'])) repl (render ps)
        = render (substFirstTok i repl ps) := by
  intro ps
  induction ps with
  | nil => intro _ _; rfl
  | cons p r ih =>
    intro hall hsep
    rw [List.all_cons, Bool.and_eq_true] at hall
    cases p with
    | lit l =>
      have hl : '$' ∉ l := by
        have := hall.1
        simp only [pieceOk, Bool.not_eq_true'] at this
        exact (contains_false_iff l '$').mp this
      show replaceFirstL ('$' :: (i ++ ['$'])) repl (l ++ render r)
          = l ++ render (substFirstTok i repl r)
      rw [replaceFirstL_skip_lit hl, ih hall.2 hsep]
    | tok t =>
      rw [sepOk, Bool.and_eq_true] at hsep
      simp only [pieceOk, Bool.and_eq_true] at hall
      by_cases hti : t = i
      · subst hti
        have hmatch : dropPre ('$' :: (t ++ ['$'])) ('$' :: (t ++ '$' :: render r))
            = some (render r) := by
          have heq : '$' :: (t ++ '$' :: render r)
              = ('$' :: (t ++ ['$'])) ++ render r := by
            simp [List.append_assoc]
          rw [heq, dropPre_append]
        show replaceFirstL ('$' :: (t ++ ['$'])) repl ('$' :: (t ++ '$' :: render r))
            = render (substFirstTok t repl (Piece.tok t :: r))
        simp only [replaceFirstL, hmatch, substFirstTok, if_pos rfl]
        rfl
      · have hblock : dropPre (i ++ ['$']) (render r) = none :=
          dropPre_render_blocked hi hall.2 hsep.1
        have hd : dropPre ('$' :: (i ++ ['$'])) ('$' :: (t ++ '$' :: render r))
            = none := by
          simp only [dropPre, if_pos rfl]
          exact dropPre_tok_ne hi hall.1.2 hti (render r)
        show replaceFirstL ('$' :: (i ++ ['$'])) repl ('$' :: (t ++ '$' :: render r))
            = render (substFirstTok i repl (Piece.tok t :: r))
        simp only [replaceFirstL, hd, substFirstTok, if_neg hti]
        rw [replaceFirstL_skip_tok hall.1.2 hblock, ih hall.2 hsep.2]
        rfl


/-! ## Preservation of the well-formedness conditions under substitution -/

theorem all_pieceOk_substTok {i repl : List Char} (hrepl : repl.contains '$' = false) :
    ∀ {ps : List Piece}, ps.all pieceOk = true →
      (substTok i repl ps).all pieceOk = true := by
  intro ps
  induction ps with
  | nil => intro _; rfl
  | cons p r ih =>
    intro hall
    rw [List.all_cons, Bool.and_eq_true] at hall
    cases p with
    | lit l =>
      rw [substTok, List.all_cons, Bool.and_eq_true]
      exact ⟨hall.1, ih hall.2⟩
    | tok t =>
      rw [substTok, List.all_cons, Bool.and_eq_true]
      refine ⟨?_, ih hall.2⟩
      by_cases hti : t = i
      · rw [if_pos hti]
        show (!repl.contains '$') = true
        rw [Bool.not_eq_true']
        exact hrepl
      · rw [if_neg hti]
        exact hall.1

theorem all_pieceOk_substFirstTok {i repl : List Char} (hrepl : repl.contains '$' = false) :
    ∀ {ps : List Piece}, ps.all pieceOk = true →
      (substFirstTok i repl ps).all pieceOk = true := by
  intro ps
  induction ps with
  | nil => intro _; rfl
  | cons p r ih =>
    intro hall
    rw [List.all_cons, Bool.and_eq_true] at hall
    cases p with
    | lit l =>
      rw [substFirstTok, List.all_cons, Bool.and_eq_true]
      exact ⟨hall.1, ih hall.2⟩
    | tok t =>
      by_cases hti : t = i
      · rw [substFirstTok, if_pos hti, List.all_cons, Bool.and_eq_true]
        refine ⟨?_, hall.2⟩
        show (!repl.contains '$') = true
        rw [Bool.not_eq_true']
        exact hrepl
      · rw [substFirstTok, if_neg hti, List.all_cons, Bool.and_eq_true]
        exact ⟨hall.1, ih hall.2⟩

theorem hasTokPiece_substTok {i repl : List Char} :
    ∀ {ps : List Piece}, hasTokPiece (substTok i repl ps) = true →
      hasTokPiece ps = true := by
  intro ps
  induction ps with
  | nil => intro h; exact h
  | cons p r ih =>
    cases p with
    | lit l => intro h; exact ih h
    | tok t =>
      intro _
      rfl

theorem hasTokPiece_substFirstTok {i repl : List Char} :
    ∀ {ps : List Piece}, hasTokPiece (substFirstTok i repl ps) = true →
      hasTokPiece ps = true := by
  intro ps
  induction ps with
  | nil => intro h; exact h
  | cons p r ih =>
    cases p with
    | lit l => intro h; exact ih h
    | tok t => intro _; rfl

theorem leadLits_substTok (i repl : List Char) :
    ∀ ps : List Piece, ∃ z, leadLits (substTok i repl ps) = leadLits ps ++ z := by
  intro ps
  induction ps with
  | nil => exact ⟨[], rfl⟩
  | cons p r ih =>
    cases p with
    | lit l =>
      obtain ⟨z, hz⟩ := ih
      exact ⟨z, by simp [substTok, leadLits, hz]⟩
    | tok t =>
      by_cases hti : t = i
      · exact ⟨leadLits (Piece.lit repl :: substTok i repl r), by
          simp [substTok, if_pos hti, leadLits]⟩
      · exact ⟨[], by simp [substTok, if_neg hti, leadLits]⟩

theorem leadLits_substFirstTok (i repl : List Char) :
    ∀ ps : List Piece, ∃ z, leadLits (substFirstTok i repl ps) = leadLits ps ++ z := by
  intro ps
  induction ps with
  | nil => exact ⟨[], rfl⟩
  | cons p r ih =>
    cases p with
    | lit l =>
      obtain ⟨z, hz⟩ := ih
      exact ⟨z, by simp [substFirstTok, leadLits, hz]⟩
    | tok t =>
      by_cases hti : t = i
      · exact ⟨leadLits (Piece.lit repl :: r), by
          simp [substFirstTok, if_pos hti, leadLits]⟩
      · exact ⟨[], by simp [substFirstTok, if_neg hti, leadLits]⟩

theorem sepOk_substTok {i repl : List Char} :
    ∀ {ps : List Piece}, sepOk ps = true → sepOk (substTok i repl ps) = true := by
  intro ps
  induction ps with
  | nil => intro _; rfl
  | cons p r ih =>
    cases p with
    | lit l => intro h; exact ih h
    | tok t =>
      intro h
      rw [sepOk, Bool.and_eq_true] at h
      have hr := ih h.2
      by_cases hti : t = i
      · rw [substTok, if_pos hti]
        exact hr
      · rw [substTok, if_neg hti]
        rw [sepOk, Bool.and_eq_true]
        refine ⟨?_, hr⟩
        rw [Bool.or_eq_true] at h ⊢
        rcases h.1 with hnt | hany
        · cases htp : hasTokPiece (substTok i repl r) with
          | false => exact Or.inl rfl
          | true =>
            have := hasTokPiece_substTok htp
            rw [Bool.not_eq_true'] at hnt
            rw [hnt] at this
            exact absurd this (by simp)
        · obtain ⟨z, hz⟩ := leadLits_substTok i repl r
          refine Or.inr ?_
          rw [hz, List.any_append, Bool.or_eq_true]
          exact Or.inl hany

theorem sepOk_substFirstTok {i repl : List Char} :
    ∀ {ps : List Piece}, sepOk ps = true → sepOk (substFirstTok i repl ps) = true := by
  intro ps
  induction ps with
  | nil => intro _; rfl
  | cons p r ih =>
    cases p with
    | lit l => intro h; exact ih h
    | tok t =>
      intro h
      rw [sepOk, Bool.and_eq_true] at h
      by_cases hti : t = i
      · rw [substFirstTok, if_pos hti]
        exact h.2
      · rw [substFirstTok, if_neg hti]
        rw [sepOk, Bool.and_eq_true]
        refine ⟨?_, ih h.2⟩
        rw [Bool.or_eq_true] at h ⊢
        rcases h.1 with hnt | hany
        · cases htp : hasTokPiece (substFirstTok i repl r) with
          | false => exact Or.inl rfl
          | true =>
            have := hasTokPiece_substFirstTok htp
            rw [Bool.not_eq_true'] at hnt
            rw [hnt] at this
            exact absurd this (by simp)
        · obtain ⟨z, hz⟩ := leadLits_substFirstTok i repl r
          refine Or.inr ?_
          rw [hz, List.any_append, Bool.or_eq_true]
          exact Or.inl hany

theorem tokInteriors_substTok (i repl : List Char) :
    ∀ ps : List Piece,
      tokInteriors (substTok i repl ps) = removeAllEq i (tokInteriors ps) := by
  intro ps
  induction ps with
  | nil => rfl
  | cons p r ih =>
    cases p with
    | lit l => simpa [substTok, tokInteriors] using ih
    | tok t =>
      by_cases hti : t = i
      · simp [substTok, if_pos hti, tokInteriors, removeAllEq, ih]
      · simp [substTok, if_neg hti, tokInteriors, removeAllEq, ih, hti]

theorem tokInteriors_substFirstTok (i repl : List Char) :
    ∀ ps : List Piece,
      tokInteriors (substFirstTok i repl ps) = removeFirstEq i (tokInteriors ps) := by
  intro ps
  induction ps with
  | nil => rfl
  | cons p r ih =>
    cases p with
    | lit l => simpa [substFirstTok, tokInteriors] using ih
    | tok t =>
      by_cases hti : t = i
      · simp [substFirstTok, if_pos hti, tokInteriors, removeFirstEq, hti]
      · simp [substFirstTok, if_neg hti, tokInteriors, removeFirstEq, ih, hti]

/-- A rendering with no tokens left and dollar-free literals is
dollar-free. -/
theorem render_noDollar :
    ∀ {ps : List Piece}, tokInteriors ps = [] → ps.all pieceOk = true →
      '$' ∉ render ps := by
  intro ps
  induction ps with
  | nil => intro _ _; simp [render]
  | cons p r ih =>
    intro hti hall
    rw [List.all_cons, Bool.and_eq_true] at hall
    cases p with
    | lit l =>
      rw [render, List.mem_append]
      rintro (h | h)
      · have := hall.1
        simp only [pieceOk, Bool.not_eq_true'] at this
        exact absurd h ((contains_false_iff l '$').mp this)
      · exact ih hti hall.2 h
    | tok t => simp [tokInteriors] at hti


/-! ## Decomposition of the four templates into pieces -/

def linuxTemplatePieces : List Piece := [
  Piece.lit "FROM ".data,
  Piece.tok "base_image_name".data,
  Piece.lit " AS base\nWORKDIR /app\n".data,
  Piece.tok "expose_statements".data,
  Piece.lit "\n\nFROM ".data,
  Piece.tok "sdk_image_name".data,
  Piece.lit " AS build\nWORKDIR /src\n".data,
  Piece.tok "copy_project_commands".data,
  Piece.lit "\nRUN dotnet restore \"".data,
  Piece.tok "container_project_directory".data,
  Piece.lit "/".data,
  Piece.tok "project_file_name".data,
  Piece.lit "\"\nCOPY . .\nWORKDIR \"/src/".data,
  Piece.tok "container_project_directory".data,
  Piece.lit "\"\nRUN dotnet build \"".data,
  Piece.tok "project_file_name".data,
  Piece.lit "\" -c Release -o /app/build\n\nFROM build AS publish\nRUN dotnet publish \"".data,
  Piece.tok "project_file_name".data,
  Piece.lit "\" -c Release -o /app/publish\n\nFROM base AS final\nWORKDIR /app\nCOPY --from=publish /app/publish .\nENTRYPOINT [\"dotnet\", \"".data,
  Piece.tok "assembly_name".data,
  Piece.lit ".dll\"]\n".data
]

/-- The Windows templates differ from the Linux ones only by the
container-compatibility comment header. -/
def windowsTemplatePieces : List Piece :=
  Piece.lit "#Depending on the operating system of the host machines(s) that will build or run the containers, the image specified in the FROM statement may need to be changed.\n#For more information, please see https://aka.ms/containercompat\n\n".data
    :: linuxTemplatePieces

theorem aspNetCoreLinuxTemplate_pieces :
    aspNetCoreLinuxTemplate.data = render linuxTemplatePieces := by decide

theorem dotNetCoreConsoleLinuxTemplate_pieces :
    dotNetCoreConsoleLinuxTemplate.data = render linuxTemplatePieces := by decide

theorem aspNetCoreWindowsTemplate_pieces :
    aspNetCoreWindowsTemplate.data = render windowsTemplatePieces := by decide

theorem dotNetCoreConsoleWindowsTemplate_pieces :
    dotNetCoreConsoleWindowsTemplate.data = render windowsTemplatePieces := by decide

theorem linuxTemplatePieces_all : linuxTemplatePieces.all pieceOk = true := by decide

theorem linuxTemplatePieces_sep : sepOk linuxTemplatePieces = true := by decide

theorem windowsTemplatePieces_all : windowsTemplatePieces.all pieceOk = true := by decide

theorem windowsTemplatePieces_sep : sepOk windowsTemplatePieces = true := by decide

/-! ## The replacement pipeline over a decomposed template -/

def applyTemplateReplacementsL (baseImageName exposeStatements sdkImageName
    projectDirectory projectFileName assemblyName copyProjectCommands
    t : List Char) : List Char :=
  replaceAllL ('$' :: ("copy_project_commands".data ++ ['$'])) copyProjectCommands
    (replaceAllL ('$' :: ("assembly_name".data ++ ['$'])) assemblyName
      (replaceAllL ('$' :: ("project_file_name".data ++ ['$'])) projectFileName
        (replaceAllL ('$' :: ("container_project_directory".data ++ ['$'])) projectDirectory
          (replaceAllL ('$' :: ("sdk_image_name".data ++ ['$'])) sdkImageName
            (replaceAllL ('$' :: ("expose_statements".data ++ ['$'])) exposeStatements
              (replaceFirstL ('$' :: ("base_image_name".data ++ ['$'])) baseImageName t))))))

theorem applyTemplateReplacements_data (b e s d f a c t : String) :
    (applyTemplateReplacements b e s d f a c t).data
      = applyTemplateReplacementsL b.data e.data s.data d.data f.data a.data c.data t.data := by
  rfl

/-- The full substitution chain on the piece level. -/
def substAllTemplate (baseImageName exposeStatements sdkImageName
    projectDirectory projectFileName assemblyName copyProjectCommands : List Char)
    (ps : List Piece) : List Piece :=
  substTok "copy_project_commands".data copyProjectCommands
    (substTok "assembly_name".data assemblyName
      (substTok "project_file_name".data projectFileName
        (substTok "container_project_directory".data projectDirectory
          (substTok "sdk_image_name".data sdkImageName
            (substTok "expose_statements".data exposeStatements
              (substFirstTok "base_image_name".data baseImageName ps))))))

theorem pipeline_render (b e s d f a c : List Char)
    (h1 : b.contains '$' = false) (h2 : e.contains '$' = false)
    (h3 : s.contains '$' = false) (h4 : d.contains '$' = false)
    (h5 : f.contains '$' = false) (h6 : a.contains '$' = false)
    {ps : List Piece} (hall : ps.all pieceOk = true) (hsep : sepOk ps = true) :
    applyTemplateReplacementsL b e s d f a c (render ps)
      = render (substAllTemplate b e s d f a c ps) := by
  have a1 := @all_pieceOk_substFirstTok "base_image_name".data b h1 ps hall
  have s1 := @sepOk_substFirstTok "base_image_name".data b ps hsep
  have a2 := @all_pieceOk_substTok "expose_statements".data e h2 _ a1
  have s2 := @sepOk_substTok "expose_statements".data e _ s1
  have a3 := @all_pieceOk_substTok "sdk_image_name".data s h3 _ a2
  have s3 := @sepOk_substTok "sdk_image_name".data s _ s2
  have a4 := @all_pieceOk_substTok "container_project_directory".data d h4 _ a3
  have s4 := @sepOk_substTok "container_project_directory".data d _ s3
  have a5 := @all_pieceOk_substTok "project_file_name".data f h5 _ a4
  have s5 := @sepOk_substTok "project_file_name".data f _ s4
  have a6 := @all_pieceOk_substTok "assembly_name".data a h6 _ a5
  have s6 := @sepOk_substTok "assembly_name".data a _ s5
  rw [applyTemplateReplacementsL,
    replaceFirstL_render (by decide) hall hsep,
    replaceAllL_render (by decide) a1 s1,
    replaceAllL_render (by decide) a2 s2,
    replaceAllL_render (by decide) a3 s3,
    replaceAllL_render (by decide) a4 s4,
    replaceAllL_render (by decide) a5 s5,
    replaceAllL_render (by decide) a6 s6]
  rfl

theorem pipeline_noDollar (b e s d f a c : List Char)
    (h1 : b.contains '$' = false) (h2 : e.contains '$' = false)
    (h3 : s.contains '$' = false) (h4 : d.contains '$' = false)
    (h5 : f.contains '$' = false) (h6 : a.contains '$' = false)
    (h7 : c.contains '$' = false)
    {ps : List Piece} (hall : ps.all pieceOk = true) (hsep : sepOk ps = true)
    (hclean : removeAllEq "copy_project_commands".data
      (removeAllEq "assembly_name".data
        (removeAllEq "project_file_name".data
          (removeAllEq "container_project_directory".data
            (removeAllEq "sdk_image_name".data
              (removeAllEq "expose_statements".data
                (removeFirstEq "base_image_name".data (tokInteriors ps))))))) = []) :
    '$' ∉ applyTemplateReplacementsL b e s d f a c (render ps) := by
  rw [pipeline_render b e s d f a c h1 h2 h3 h4 h5 h6 hall hsep]
  apply render_noDollar
  · rw [substAllTemplate, tokInteriors_substTok, tokInteriors_substTok,
      tokInteriors_substTok, tokInteriors_substTok, tokInteriors_substTok,
      tokInteriors_substTok, tokInteriors_substFirstTok]
    exact hclean
  · exact all_pieceOk_substTok h7 (all_pieceOk_substTok h6 (all_pieceOk_substTok h5
      (all_pieceOk_substTok h4 (all_pieceOk_substTok h3 (all_pieceOk_substTok h2
        (all_pieceOk_substFirstTok h1 hall))))))

theorem linuxTemplatePieces_clean :
    removeAllEq "copy_project_commands".data
      (removeAllEq "assembly_name".data
        (removeAllEq "project_file_name".data
          (removeAllEq "container_project_directory".data
            (removeAllEq "sdk_image_name".data
              (removeAllEq "expose_statements".data
                (removeFirstEq "base_image_name".data
                  (tokInteriors linuxTemplatePieces))))))) = [] := by decide

theorem windowsTemplatePieces_clean :
    removeAllEq "copy_project_commands".data
      (removeAllEq "assembly_name".data
        (removeAllEq "project_file_name".data
          (removeAllEq "container_project_directory".data
            (removeAllEq "sdk_image_name".data
              (removeAllEq "expose_statements".data
                (removeFirstEq "base_image_name".data
                  (tokInteriors windowsTemplatePieces))))))) = [] := by decide


/-! ## The replacement values are dollar-free -/

theorem replaceFirstL_mem {pat repl : List Char} :
    ∀ {s : List Char} {x : Char}, x ∈ replaceFirstL pat repl s → x ∈ s ∨ x ∈ repl := by
  intro s
  induction s with
  | nil => intro x h; simp [replaceFirstL] at h
  | cons c cs ih =>
    intro x h
    rw [replaceFirstL] at h
    cases hd : dropPre pat (c :: cs) with
    | some rest =>
      rw [hd] at h
      rcases List.mem_append.mp h with h' | h'
      · exact Or.inr h'
      · refine Or.inl ?_
        rw [dropPre_eq_some hd]
        exact List.mem_append.mpr (Or.inr h')
    | none =>
      rw [hd] at h
      rcases List.mem_cons.mp h with h' | h'
      · exact Or.inl (h' ▸ List.mem_cons_self c cs)
      · rcases ih h' with h'' | h''
        · exact Or.inl (List.mem_cons_of_mem _ h'')
        · exact Or.inr h''

theorem natDecimal_noDollar (n : Nat) : '$' ∉ natDecimal n :=
  (contains_false_iff _ _).mp (natDecimal_not_contains_dollar n)

theorem imageName_noDollar {format : String} (hf : '$' ∉ format.data)
    {tag : String} (htag : '$' ∉ tag.data) (v : SemVer) :
    '$' ∉ (jsReplaceFirst "{2}" tag
        (jsReplaceFirst "{1}" (natDecimalS v.minor)
          (jsReplaceFirst "{0}" (natDecimalS v.major) format))).data := by
  intro hmem
  rcases replaceFirstL_mem hmem with h | h
  · rcases replaceFirstL_mem h with h' | h'
    · rcases replaceFirstL_mem h' with h'' | h''
      · exact hf h''
      · exact natDecimal_noDollar v.major h''
    · exact natDecimal_noDollar v.minor h'
  · exact htag h

theorem formatVersion_ok {nv : String} {v : SemVer} (hv : semverParse nv = some v)
    (format tag : String) :
    formatVersion format nv tag
      = .ok (jsReplaceFirst "{2}" tag
          (jsReplaceFirst "{1}" (natDecimalS v.minor)
            (jsReplaceFirst "{0}" (natDecimalS v.major) format))) := by
  unfold formatVersion
  rw [hv]

theorem GetWindowsImageTag_mem (host : HostOS) :
    GetWindowsImageTag host ∈ ["-nanoserver-1903", "-nanoserver-1809",
      "-nanoserver-1803", "-nanoserver-1709", "-nanoserver-sac2016"] := by
  unfold GetWindowsImageTag
  split
  · simp
  · split
    · simp
    · split
      · simp
      · split <;> simp

theorem tagForWindowsVersionOf_noDollar (host : HostOS) (os : Option String)
    (v : SemVer) : '$' ∉ (tagForWindowsVersionOf host os v).data := by
  unfold tagForWindowsVersionOf
  split
  · simp
  · have := GetWindowsImageTag_mem host
    simp only [List.mem_cons, List.not_mem_nil, or_false] at this
    rcases this with h | h | h | h | h <;> rw [h] <;> decide

theorem exposeLines_noDollar : ∀ ps : List Nat, '$' ∉ exposeLines ps := by
  intro ps
  induction ps with
  | nil => simp [exposeLines]
  | cons p rest ih =>
    cases rest with
    | nil =>
      show '$' ∉ "EXPOSE ".data ++ natDecimal p
      intro h
      rcases List.mem_append.mp h with h' | h'
      · exact absurd h' (by decide)
      · exact natDecimal_noDollar p h'
    | cons q rest' =>
      show '$' ∉ "EXPOSE ".data ++ (natDecimal p ++ '\n' :: exposeLines (q :: rest'))
      intro h
      rcases List.mem_append.mp h with h' | h'
      · exact absurd h' (by decide)
      · rcases List.mem_append.mp h' with h'' | h''
        · exact natDecimal_noDollar p h''
        · rcases List.mem_cons.mp h'' with h3 | h3
          · exact absurd h3 (by decide)
          · exact ih h3

theorem getExposeStatements_noDollar (ports : Option (List Nat)) :
    '$' ∉ (getExposeStatements ports).data := by
  cases ports with
  | none => simp [getExposeStatements]
  | some ps => exact exposeLines_noDollar ps

theorem posixBasename_noDollar {p : List Char} (hp : '$' ∉ p) :
    '$' ∉ posixBasename p := by
  intro h
  rw [posixBasename, List.mem_reverse] at h
  exact hp (List.mem_reverse.mp
    ((List.dropWhile_sublist _).mem ((List.takeWhile_sublist _).mem h)))

theorem posixDirname_noDollar {p : List Char} (hp : '$' ∉ p) :
    '$' ∉ posixDirname p := by
  rw [posixDirname]
  split
  · decide
  · split
    · split <;> decide
    · rename_i c rest heq
      split
      · decide
      · split
        · decide
        · intro h
          rw [List.mem_reverse] at h
          have hr2 : ('$' : Char)
              ∈ (p.reverse.dropWhile (fun c => c = '/')).dropWhile (fun c => c ≠ '/') := by
            rw [heq]
            exact List.mem_cons_of_mem c h
          have h2 := (List.dropWhile_sublist (fun c => decide (c ≠ '/'))).mem hr2
          have h3 := (List.dropWhile_sublist (fun c => decide (c = '/'))).mem h2
          exact hp (List.mem_reverse.mp h3)


/-! ## Claim C3: no unreplaced template token -/

/-- The observable outcome relevant to the final check of `genDockerFile`:
either a returned Dockerfile with no remaining `$[a-z_]+$` token, or an
exception that is not the `assert.fail('Unreplaced template token ...')`
one. -/
def noUnreplacedTokenOutcome : Except String String → Bool
  | .ok s => (findTokL s.data).isNone
  | .error e => !((dropPre "Unreplaced template token".data e.data).isSome)

theorem invalid_version_not_unreplaced (nv : String) :
    dropPre "Unreplaced template token".data ("Invalid Version: " ++ nv).data
      = none := by
  have h1 : ("Invalid Version: " ++ nv).data
      = 'I' :: ("nvalid Version: ".data ++ nv.data) := rfl
  have h2 : "Unreplaced template token".data
      = 'U' :: "nreplaced template token".data := rfl
  rw [h1, h2]
  simp [dropPre]

/-- The final check of `genDockerFile` succeeds whenever the template
decomposes into well-separated pieces whose tokens are exactly the seven
known ones and all replacement values are dollar-free. -/
theorem ok_outcome_of (b e s d f a c t : String) {ps : List Piece}
    (hall : ps.all pieceOk = true) (hsep : sepOk ps = true)
    (hclean : removeAllEq "copy_project_commands".data
      (removeAllEq "assembly_name".data
        (removeAllEq "project_file_name".data
          (removeAllEq "container_project_directory".data
            (removeAllEq "sdk_image_name".data
              (removeAllEq "expose_statements".data
                (removeFirstEq "base_image_name".data (tokInteriors ps))))))) = [])
    (ht : t.data = render ps)
    (hb : '$' ∉ b.data) (he : '$' ∉ e.data) (hs : '$' ∉ s.data)
    (hd : '$' ∉ d.data) (hf : '$' ∉ f.data) (ha : '$' ∉ a.data)
    (hc : '$' ∉ c.data) :
    noUnreplacedTokenOutcome (renderDockerFile b e s d f a c t) = true := by
  unfold renderDockerFile
  have hnd : '$' ∉ (applyTemplateReplacements b e s d f a c t).data := by
    rw [applyTemplateReplacements_data, ht]
    exact pipeline_noDollar _ _ _ _ _ _ _
      ((contains_false_iff _ _).mpr hb) ((contains_false_iff _ _).mpr he)
      ((contains_false_iff _ _).mpr hs) ((contains_false_iff _ _).mpr hd)
      ((contains_false_iff _ _).mpr hf) ((contains_false_iff _ _).mpr ha)
      ((contains_false_iff _ _).mpr hc) hall hsep hclean
  rw [findTokL_of_not_contains ((contains_false_iff _ _).mpr hnd)]
  show (findTokL (applyTemplateReplacements b e s d f a c t).data).isNone = true
  rw [findTokL_of_not_contains ((contains_false_iff _ _).mpr hnd)]
  rfl


/-! ## Reduction lemmas for the image-format selection (lines 192-218) -/

theorem selectImageFormats_asp_ge {v : SemVer} (hge : semverGte v ⟨2, 1, 0⟩ = true) :
    selectImageFormats "ASP.NET Core" v
      = some (AspNetCoreRuntimeImageFormat, DotNetCoreSdkImageFormat) := by
  simp [selectImageFormats, hge]

theorem selectImageFormats_console_ge {v : SemVer} (hge : semverGte v ⟨2, 1, 0⟩ = true) :
    selectImageFormats ".NET Core Console" v
      = some (DotNetCoreRuntimeImageFormat, DotNetCoreSdkImageFormat) := by
  simp [selectImageFormats, hge]

theorem selectImageFormats_asp_lt {v : SemVer} (hge : semverGte v ⟨2, 1, 0⟩ = false) :
    selectImageFormats "ASP.NET Core" v
      = some (LegacyAspNetCoreRuntimeImageFormat, LegacyAspNetCoreSdkImageFormat) := by
  simp [selectImageFormats, hge]

theorem selectImageFormats_console_lt {v : SemVer} (hge : semverGte v ⟨2, 1, 0⟩ = false) :
    selectImageFormats ".NET Core Console" v
      = some (LegacyDotNetCoreRuntimeImageFormat, LegacyDotNetCoreSdkImageFormat) := by
  simp [selectImageFormats, hge]

theorem selectTemplate_asp_linux :
    selectTemplate "ASP.NET Core" (some "Linux") = some aspNetCoreLinuxTemplate := by
  simp [selectTemplate]

theorem selectTemplate_asp_windows :
    selectTemplate "ASP.NET Core" (some "Windows") = some aspNetCoreWindowsTemplate := by
  simp [selectTemplate]

theorem selectTemplate_console_linux :
    selectTemplate ".NET Core Console" (some "Linux")
      = some dotNetCoreConsoleLinuxTemplate := by
  simp [selectTemplate]

theorem selectTemplate_console_windows :
    selectTemplate ".NET Core Console" (some "Windows")
      = some dotNetCoreConsoleWindowsTemplate := by
  simp [selectTemplate]


/-- C3 (amended): for every call of `genDockerFile` with os in
Windows/Linux and platform ASP.NET Core / .NET Core Console, provided the
`serviceNameAndRelativePath` and `artifactName` arguments contain no `'$'`
character, the outcome carries no unreplaced `$[a-z_]+$` template token:
every returned Dockerfile has all tokens of the template-token table
substituted, and the `assert.fail('Unreplaced template token')` branch is
unreachable (the only possible exception is semver's `Invalid Version`). -/
theorem claim_C3 (sp platform : String) (os : Option String)
    (ports : Option (List Nat)) (version artifactName : String) (host : HostOS)
    (hos : os = some "Windows" ∨ os = some "Linux")
    (hplat : platform = "ASP.NET Core" ∨ platform = ".NET Core Console")
    (hsp : '$' ∉ sp.data) (han : '$' ∉ artifactName.data) :
    noUnreplacedTokenOutcome
      (genDockerFile sp platform os ports version artifactName host) = true := by
  have hserv : '$' ∉ (posixBasenameS sp).data := posixBasename_noDollar hsp
  have hdir : '$' ∉ (posixDirnameS sp).data := posixDirname_noDollar hsp
  have hcopy : '$' ∉ ("COPY [\"" ++ artifactName ++ "\", \"" ++ posixDirnameS sp ++ "/\"]").data := by
    intro h
    simp only [String.data_append] at h
    rcases List.mem_append.mp h with h1 | h1
    · rcases List.mem_append.mp h1 with h2 | h2
      · rcases List.mem_append.mp h2 with h3 | h3
        · rcases List.mem_append.mp h3 with h4 | h4
          · exact absurd h4 (by decide)
          · exact han h4
        · exact absurd h3 (by decide)
      · exact hdir h2
    · exact absurd h1 (by decide)
  rcases hplat with rfl | rfl <;> rcases hos with rfl | rfl
  ·
    unfold genDockerFile
    rw [if_neg (by simp : ¬((some "Windows" : Option String) ≠ some "Windows"
      ∧ (some "Windows" : Option String) ≠ some "Linux"))]
    cases hv : semverParse (netCoreAppVersionOf version) with
    | none =>
      show (!(dropPre "Unreplaced template token".data
          ("Invalid Version: " ++ netCoreAppVersionOf version).data).isSome) = true
      rw [invalid_version_not_unreplaced]
      rfl
    | some v =>
      simp only []
      cases hge : semverGte v ⟨2, 1, 0⟩ with
    | true =>
      rw [selectImageFormats_asp_ge hge]
      simp only []
      rw [formatVersion_ok hv AspNetCoreRuntimeImageFormat,
        formatVersion_ok hv DotNetCoreSdkImageFormat]
      simp only []
      rw [selectTemplate_asp_windows]
      simp only []
      exact ok_outcome_of _ _ _ _ _ _ _ _ windowsTemplatePieces_all windowsTemplatePieces_sep
        windowsTemplatePieces_clean aspNetCoreWindowsTemplate_pieces
        (imageName_noDollar (by decide) (tagForWindowsVersionOf_noDollar host _ v) v)
        (getExposeStatements_noDollar ports)
        (imageName_noDollar (by decide) (tagForWindowsVersionOf_noDollar host _ v) v)
        hdir (posixBasename_noDollar han) hserv hcopy
    | false =>
      rw [selectImageFormats_asp_lt hge]
      simp only []
      rw [formatVersion_ok hv LegacyAspNetCoreRuntimeImageFormat,
        formatVersion_ok hv LegacyAspNetCoreSdkImageFormat]
      simp only []
      rw [selectTemplate_asp_windows]
      simp only []
      exact ok_outcome_of _ _ _ _ _ _ _ _ windowsTemplatePieces_all windowsTemplatePieces_sep
        windowsTemplatePieces_clean aspNetCoreWindowsTemplate_pieces
        (imageName_noDollar (by decide) (tagForWindowsVersionOf_noDollar host _ v) v)
        (getExposeStatements_noDollar ports)
        (imageName_noDollar (by decide) (tagForWindowsVersionOf_noDollar host _ v) v)
        hdir (posixBasename_noDollar han) hserv hcopy
  ·
    unfold genDockerFile
    rw [if_neg (by simp : ¬((some "Linux" : Option String) ≠ some "Windows"
      ∧ (some "Linux" : Option String) ≠ some "Linux"))]
    cases hv : semverParse (netCoreAppVersionOf version) with
    | none =>
      show (!(dropPre "Unreplaced template token".data
          ("Invalid Version: " ++ netCoreAppVersionOf version).data).isSome) = true
      rw [invalid_version_not_unreplaced]
      rfl
    | some v =>
      simp only []
      cases hge : semverGte v ⟨2, 1, 0⟩ with
    | true =>
      rw [selectImageFormats_asp_ge hge]
      simp only []
      rw [formatVersion_ok hv AspNetCoreRuntimeImageFormat,
        formatVersion_ok hv DotNetCoreSdkImageFormat]
      simp only []
      rw [selectTemplate_asp_linux]
      simp only []
      exact ok_outcome_of _ _ _ _ _ _ _ _ linuxTemplatePieces_all linuxTemplatePieces_sep
        linuxTemplatePieces_clean aspNetCoreLinuxTemplate_pieces
        (imageName_noDollar (by decide) (tagForWindowsVersionOf_noDollar host _ v) v)
        (getExposeStatements_noDollar ports)
        (imageName_noDollar (by decide) (tagForWindowsVersionOf_noDollar host _ v) v)
        hdir (posixBasename_noDollar han) hserv hcopy
    | false =>
      rw [selectImageFormats_asp_lt hge]
      simp only []
      rw [formatVersion_ok hv LegacyAspNetCoreRuntimeImageFormat,
        formatVersion_ok hv LegacyAspNetCoreSdkImageFormat]
      simp only []
      rw [selectTemplate_asp_linux]
      simp only []
      exact ok_outcome_of _ _ _ _ _ _ _ _ linuxTemplatePieces_all linuxTemplatePieces_sep
        linuxTemplatePieces_clean aspNetCoreLinuxTemplate_pieces
        (imageName_noDollar (by decide) (tagForWindowsVersionOf_noDollar host _ v) v)
        (getExposeStatements_noDollar ports)
        (imageName_noDollar (by decide) (tagForWindowsVersionOf_noDollar host _ v) v)
        hdir (posixBasename_noDollar han) hserv hcopy
  ·
    unfold genDockerFile
    rw [if_neg (by simp : ¬((some "Windows" : Option String) ≠ some "Windows"
      ∧ (some "Windows" : Option String) ≠ some "Linux"))]
    cases hv : semverParse (netCoreAppVersionOf version) with
    | none =>
      show (!(dropPre "Unreplaced template token".data
          ("Invalid Version: " ++ netCoreAppVersionOf version).data).isSome) = true
      rw [invalid_version_not_unreplaced]
      rfl
    | some v =>
      simp only []
      cases hge : semverGte v ⟨2, 1, 0⟩ with
    | true =>
      rw [selectImageFormats_console_ge hge]
      simp only []
      rw [formatVersion_ok hv DotNetCoreRuntimeImageFormat,
        formatVersion_ok hv DotNetCoreSdkImageFormat]
      simp only []
      rw [selectTemplate_console_windows]
      simp only []
      exact ok_outcome_of _ _ _ _ _ _ _ _ windowsTemplatePieces_all windowsTemplatePieces_sep
        windowsTemplatePieces_clean dotNetCoreConsoleWindowsTemplate_pieces
        (imageName_noDollar (by decide) (tagForWindowsVersionOf_noDollar host _ v) v)
        (getExposeStatements_noDollar ports)
        (imageName_noDollar (by decide) (tagForWindowsVersionOf_noDollar host _ v) v)
        hdir (posixBasename_noDollar han) hserv hcopy
    | false =>
      rw [selectImageFormats_console_lt hge]
      simp only []
      rw [formatVersion_ok hv LegacyDotNetCoreRuntimeImageFormat,
        formatVersion_ok hv LegacyDotNetCoreSdkImageFormat]
      simp only []
      rw [selectTemplate_console_windows]
      simp only []
      exact ok_outcome_of _ _ _ _ _ _ _ _ windowsTemplatePieces_all windowsTemplatePieces_sep
        windowsTemplatePieces_clean dotNetCoreConsoleWindowsTemplate_pieces
        (imageName_noDollar (by decide) (tagForWindowsVersionOf_noDollar host _ v) v)
        (getExposeStatements_noDollar ports)
        (imageName_noDollar (by decide) (tagForWindowsVersionOf_noDollar host _ v) v)
        hdir (posixBasename_noDollar han) hserv hcopy
  ·
    unfold genDockerFile
    rw [if_neg (by simp : ¬((some "Linux" : Option String) ≠ some "Windows"
      ∧ (some "Linux" : Option String) ≠ some "Linux"))]
    cases hv : semverParse (netCoreAppVersionOf version) with
    | none =>
      show (!(dropPre "Unreplaced template token".data
          ("Invalid Version: " ++ netCoreAppVersionOf version).data).isSome) = true
      rw [invalid_version_not_unreplaced]
      rfl
    | some v =>
      simp only []
      cases hge : semverGte v ⟨2, 1, 0⟩ with
    | true =>
      rw [selectImageFormats_console_ge hge]
      simp only []
      rw [formatVersion_ok hv DotNetCoreRuntimeImageFormat,
        formatVersion_ok hv DotNetCoreSdkImageFormat]
      simp only []
      rw [selectTemplate_console_linux]
      simp only []
      exact ok_outcome_of _ _ _ _ _ _ _ _ linuxTemplatePieces_all linuxTemplatePieces_sep
        linuxTemplatePieces_clean dotNetCoreConsoleLinuxTemplate_pieces
        (imageName_noDollar (by decide) (tagForWindowsVersionOf_noDollar host _ v) v)
        (getExposeStatements_noDollar ports)
        (imageName_noDollar (by decide) (tagForWindowsVersionOf_noDollar host _ v) v)
        hdir (posixBasename_noDollar han) hserv hcopy
    | false =>
      rw [selectImageFormats_console_lt hge]
      simp only []
      rw [formatVersion_ok hv LegacyDotNetCoreRuntimeImageFormat,
        formatVersion_ok hv LegacyDotNetCoreSdkImageFormat]
      simp only []
      rw [selectTemplate_console_linux]
      simp only []
      exact ok_outcome_of _ _ _ _ _ _ _ _ linuxTemplatePieces_all linuxTemplatePieces_sep
        linuxTemplatePieces_clean dotNetCoreConsoleLinuxTemplate_pieces
        (imageName_noDollar (by decide) (tagForWindowsVersionOf_noDollar host _ v) v)
        (getExposeStatements_noDollar ports)
        (imageName_noDollar (by decide) (tagForWindowsVersionOf_noDollar host _ v) v)
        hdir (posixBasename_noDollar han) hserv hcopy


theorem claim_C3_witness :
    noUnreplacedTokenOutcome
      (genDockerFile "proj/MyApp" "ASP.NET Core" (some "Linux") (some [80, 443])
        "netcoreapp2.1" "proj/MyApp.csproj" ⟨false, false, false, false, false⟩) = true :=
  claim_C3 "proj/MyApp" "ASP.NET Core" (some "Linux") (some [80, 443])
    "netcoreapp2.1" "proj/MyApp.csproj" ⟨false, false, false, false, false⟩
    (Or.inr rfl) (Or.inl rfl) (by decide) (by decide)

/-- C3 as frozen is false: with valid os and platform but a project path
whose directory is literally `$base_image_name$`, the substituted directory
re-introduces that token after the base-image replacement has already run,
the final scan finds it, and the `assert.fail('Unreplaced template token')`
branch is reached (no Dockerfile is returned). -/
theorem claim_C3_counterexample :
    noUnreplacedTokenOutcome
      (genDockerFile "$base_image_name$/x" ".NET Core Console" (some "Linux") none
        "netcoreapp2.1" "a.csproj" ⟨false, false, false, false, false⟩) = false
    ∧ (genDockerFile "$base_image_name$/x" ".NET Core Console" (some "Linux") none
        "netcoreapp2.1" "a.csproj" ⟨false, false, false, false, false⟩).toOption = none :=
  ⟨by decide, by decide⟩


/-- C1: version-aware base-image selection.  For any TargetFramework value
whose parsed .NET Core version (after defaulting and patch-completion, as
`genDockerFile` computes it) is `v`: when `v ≥ 2.1.0` the ASP.NET Core
platform selects the `mcr.microsoft.com/dotnet/core/aspnet` base format and
the console platform the `mcr.microsoft.com/dotnet/core/runtime` one, both
with the `mcr.microsoft.com/dotnet/core/sdk` SDK format; when `v < 2.1.0`
the legacy Docker Hub formats `microsoft/aspnetcore(-build)` and
`microsoft/dotnet:{0}.{1}-runtime` with `-sdk` are selected. -/
theorem claim_C1 (version : String) (v : SemVer)
    (hv : semverParse (netCoreAppVersionOf version) = some v) (platform : String) :
    (semverGte v ⟨2, 1, 0⟩ = true →
      (platform = "ASP.NET Core" →
        selectImageFormats platform v
          = some ("mcr.microsoft.com/dotnet/core/aspnet:{0}.{1}{2}",
                  "mcr.microsoft.com/dotnet/core/sdk:{0}.{1}{2}"))
      ∧ (platform = ".NET Core Console" →
        selectImageFormats platform v
          = some ("mcr.microsoft.com/dotnet/core/runtime:{0}.{1}{2}",
                  "mcr.microsoft.com/dotnet/core/sdk:{0}.{1}{2}")))
    ∧ (semverLt v ⟨2, 1, 0⟩ = true →
      (platform = "ASP.NET Core" →
        selectImageFormats platform v
          = some ("microsoft/aspnetcore:{0}.{1}{2}",
                  "microsoft/aspnetcore-build:{0}.{1}{2}"))
      ∧ (platform = ".NET Core Console" →
        selectImageFormats platform v
          = some ("microsoft/dotnet:{0}.{1}-runtime{2}",
                  "microsoft/dotnet:{0}.{1}-sdk{2}"))) := by
  constructor
  · intro hge
    constructor
    · rintro rfl
      rw [selectImageFormats_asp_ge hge]
      rfl
    · rintro rfl
      rw [selectImageFormats_console_ge hge]
      rfl
  · intro hlt
    have hge : semverGte v ⟨2, 1, 0⟩ = false := by
      rw [semverGte, hlt]
      rfl
    constructor
    · rintro rfl
      rw [selectImageFormats_asp_lt hge]
      rfl
    · rintro rfl
      rw [selectImageFormats_console_lt hge]
      rfl

theorem claim_C1_witness :
    (semverGte ⟨2, 1, 0⟩ ⟨2, 1, 0⟩ = true →
      ("ASP.NET Core" = "ASP.NET Core" →
        selectImageFormats "ASP.NET Core" ⟨2, 1, 0⟩
          = some ("mcr.microsoft.com/dotnet/core/aspnet:{0}.{1}{2}",
                  "mcr.microsoft.com/dotnet/core/sdk:{0}.{1}{2}"))
      ∧ ("ASP.NET Core" = ".NET Core Console" →
        selectImageFormats "ASP.NET Core" ⟨2, 1, 0⟩
          = some ("mcr.microsoft.com/dotnet/core/runtime:{0}.{1}{2}",
                  "mcr.microsoft.com/dotnet/core/sdk:{0}.{1}{2}")))
    ∧ (semverLt ⟨2, 1, 0⟩ ⟨2, 1, 0⟩ = true →
      ("ASP.NET Core" = "ASP.NET Core" →
        selectImageFormats "ASP.NET Core" ⟨2, 1, 0⟩
          = some ("microsoft/aspnetcore:{0}.{1}{2}",
                  "microsoft/aspnetcore-build:{0}.{1}{2}"))
      ∧ ("ASP.NET Core" = ".NET Core Console" →
        selectImageFormats "ASP.NET Core" ⟨2, 1, 0⟩
          = some ("microsoft/dotnet:{0}.{1}-runtime{2}",
                  "microsoft/dotnet:{0}.{1}-sdk{2}"))) :=
  claim_C1 "netcoreapp2.1" ⟨2, 1, 0⟩ (by decide) "ASP.NET Core"

/-- C2: OS-specific tag resolution.  For the parsed version `v` as
`genDockerFile` computes it: targeting Linux, or a version below 2.0.0,
yields the empty Windows tag (substituted into both the base and the SDK
image names through the `{2}` placeholder); targeting Windows with version
at least 2.0.0 yields `GetWindowsImageTag` of the host, one of the five
fixed nanoserver suffixes, and `-nanoserver-1903` whenever the host is not
Windows or is Windows 19H1 or newer. -/
theorem claim_C2 (host : HostOS) (os : Option String) (version : String)
    (v : SemVer) (hv : semverParse (netCoreAppVersionOf version) = some v) :
    ((os = some "Linux" ∨ semverLt v ⟨2, 0, 0⟩ = true) →
      tagForWindowsVersionOf host os v = "")
    ∧ (os = some "Windows" → semverLt v ⟨2, 0, 0⟩ = false →
      tagForWindowsVersionOf host os v = GetWindowsImageTag host
      ∧ tagForWindowsVersionOf host os v ∈ ["-nanoserver-1903", "-nanoserver-1809",
          "-nanoserver-1803", "-nanoserver-1709", "-nanoserver-sac2016"]
      ∧ ((host.isWindows = false ∨ host.isWindows1019H1OrNewer = true) →
        tagForWindowsVersionOf host os v = "-nanoserver-1903")) := by
  constructor
  · intro h
    rw [tagForWindowsVersionOf]
    rcases h with h | h
    · rw [if_pos]
      rw [h]
      simp
    · rw [if_pos]
      rw [h]
      simp
  · rintro rfl hlt
    have hcond : ((some "Windows" : Option String) = some "Linux" : Bool) = false := by decide
    rw [tagForWindowsVersionOf, if_neg (by simp [hlt])]
    refine ⟨rfl, GetWindowsImageTag_mem host, ?_⟩
    intro hhost
    rw [GetWindowsImageTag, if_pos]
    rcases hhost with h | h
    · rw [h]
      simp
    · rw [h]
      simp

theorem claim_C2_witness :
    (((some "Linux" : Option String) = some "Linux" ∨ semverLt ⟨2, 1, 0⟩ ⟨2, 0, 0⟩ = true) →
      tagForWindowsVersionOf ⟨false, false, false, false, false⟩ (some "Linux") ⟨2, 1, 0⟩ = "")
    ∧ ((some "Linux" : Option String) = some "Windows" → semverLt ⟨2, 1, 0⟩ ⟨2, 0, 0⟩ = false →
      tagForWindowsVersionOf ⟨false, false, false, false, false⟩ (some "Linux") ⟨2, 1, 0⟩
          = GetWindowsImageTag ⟨false, false, false, false, false⟩
      ∧ tagForWindowsVersionOf ⟨false, false, false, false, false⟩ (some "Linux") ⟨2, 1, 0⟩
          ∈ ["-nanoserver-1903", "-nanoserver-1809", "-nanoserver-1803",
             "-nanoserver-1709", "-nanoserver-sac2016"]
      ∧ ((⟨false, false, false, false, false⟩ : HostOS).isWindows = false
          ∨ (⟨false, false, false, false, false⟩ : HostOS).isWindows1019H1OrNewer = true →
        tagForWindowsVersionOf ⟨false, false, false, false, false⟩ (some "Linux") ⟨2, 1, 0⟩
          = "-nanoserver-1903")) :=
  claim_C2 ⟨false, false, false, false, false⟩ (some "Linux") "netcoreapp2.1" ⟨2, 1, 0⟩ (by decide)

/-- C10: version-parsing defaults.  When the TargetFramework value does not
match `^netcoreapp([0-9.]+)$` the version defaults to `"2.1"`, which after
patch-completion parses as 2.1.0 and therefore selects the MCR image
formats on both valid platforms; and whenever the extracted capture has
only a major and a minor component, `".0"` is appended before any semver
comparison. -/
theorem claim_C10 (version : String) :
    (matchNetCoreApp version = none →
      netCoreAppVersionOf version = "2.1.0"
      ∧ semverParse (netCoreAppVersionOf version) = some ⟨2, 1, 0⟩
      ∧ selectImageFormats "ASP.NET Core" ⟨2, 1, 0⟩
          = some (AspNetCoreRuntimeImageFormat, DotNetCoreSdkImageFormat)
      ∧ selectImageFormats ".NET Core Console" ⟨2, 1, 0⟩
          = some (DotNetCoreRuntimeImageFormat, DotNetCoreSdkImageFormat))
    ∧ (∀ nv, matchNetCoreApp version = some nv → hasMajorMinorOnly nv = true →
      netCoreAppVersionOf version = nv ++ ".0") := by
  constructor
  · intro h
    have h1 : netCoreAppVersionOf version = "2.1.0" := by
      rw [netCoreAppVersionOf, h]
      rfl
    refine ⟨h1, ?_, ?_, ?_⟩
    · rw [h1]
      decide
    · exact selectImageFormats_asp_ge (by decide)
    · exact selectImageFormats_console_ge (by decide)
  · intro nv h hmm
    rw [netCoreAppVersionOf, h]
    show (if hasMajorMinorOnly nv then nv ++ ".0" else nv) = nv ++ ".0"
    rw [if_pos hmm]

theorem claim_C10_witness :
    (matchNetCoreApp "net45" = none →
      netCoreAppVersionOf "net45" = "2.1.0"
      ∧ semverParse (netCoreAppVersionOf "net45") = some ⟨2, 1, 0⟩
      ∧ selectImageFormats "ASP.NET Core" ⟨2, 1, 0⟩
          = some (AspNetCoreRuntimeImageFormat, DotNetCoreSdkImageFormat)
      ∧ selectImageFormats ".NET Core Console" ⟨2, 1, 0⟩
          = some (DotNetCoreRuntimeImageFormat, DotNetCoreSdkImageFormat))
    ∧ (∀ nv, matchNetCoreApp "net45" = some nv → hasMajorMinorOnly nv = true →
      netCoreAppVersionOf "net45" = nv ++ ".0") :=
  claim_C10 "net45"


/-! ## Claim C8: the final ENTRYPOINT line -/

/-- Inversion of the final check: a successful `renderDockerFile` returns
exactly the substituted contents. -/
theorem renderDockerFile_ok {B E S D F A C T out : String}
    (h : renderDockerFile B E S D F A C T = .ok out) :
    out = applyTemplateReplacements B E S D F A C T := by
  unfold renderDockerFile at h
  cases hfind : findTokL (applyTemplateReplacements B E S D F A C T).data with
  | some tk =>
    rw [hfind] at h
    exact Except.noConfusion h
  | none =>
    rw [hfind] at h
    simp only [] at h
    injection h with h'
    exact h'.symm

theorem entrypoint_suffix_linux (B E S D F A C t : String)
    (ht : t.data = render linuxTemplatePieces)
    (hb : '$' ∉ B.data) (he : '$' ∉ E.data) (hs : '$' ∉ S.data)
    (hd : '$' ∉ D.data) (hf : '$' ∉ F.data) (ha : '$' ∉ A.data) :
    ∃ p, (applyTemplateReplacements B E S D F A C t).data
      = p ++ ("ENTRYPOINT [\"dotnet\", \"".data ++ (A.data ++ ".dll\"]\n".data)) := by
  refine ⟨"FROM ".data
      ++ (B.data
      ++ (" AS base\nWORKDIR /app\n".data
      ++ (E.data
      ++ ("\n\nFROM ".data
      ++ (S.data
      ++ (" AS build\nWORKDIR /src\n".data
      ++ (C.data
      ++ ("\nRUN dotnet restore \"".data
      ++ (D.data
      ++ ("/".data
      ++ (F.data
      ++ ("\"\nCOPY . .\nWORKDIR \"/src/".data
      ++ (D.data
      ++ ("\"\nRUN dotnet build \"".data
      ++ (F.data
      ++ ("\" -c Release -o /app/build\n\nFROM build AS publish\nRUN dotnet publish \"".data
      ++ (F.data
      ++ ("\" -c Release -o /app/publish\n\nFROM base AS final\nWORKDIR /app\nCOPY --from=publish /app/publish .\n".data)))))))))))))))))), ?_⟩
  rw [applyTemplateReplacements_data, ht,
    pipeline_render B.data E.data S.data D.data F.data A.data C.data
      ((contains_false_iff _ _).mpr hb) ((contains_false_iff _ _).mpr he)
      ((contains_false_iff _ _).mpr hs) ((contains_false_iff _ _).mpr hd)
      ((contains_false_iff _ _).mpr hf) ((contains_false_iff _ _).mpr ha)
      linuxTemplatePieces_all linuxTemplatePieces_sep]
  have hsub : substAllTemplate B.data E.data S.data D.data F.data A.data C.data
      linuxTemplatePieces
      = [Piece.lit "FROM ".data,
      Piece.lit B.data,
      Piece.lit " AS base\nWORKDIR /app\n".data,
      Piece.lit E.data,
      Piece.lit "\n\nFROM ".data,
      Piece.lit S.data,
      Piece.lit " AS build\nWORKDIR /src\n".data,
      Piece.lit C.data,
      Piece.lit "\nRUN dotnet restore \"".data,
      Piece.lit D.data,
      Piece.lit "/".data,
      Piece.lit F.data,
      Piece.lit "\"\nCOPY . .\nWORKDIR \"/src/".data,
      Piece.lit D.data,
      Piece.lit "\"\nRUN dotnet build \"".data,
      Piece.lit F.data,
      Piece.lit "\" -c Release -o /app/build\n\nFROM build AS publish\nRUN dotnet publish \"".data,
      Piece.lit F.data,
      Piece.lit "\" -c Release -o /app/publish\n\nFROM base AS final\nWORKDIR /app\nCOPY --from=publish /app/publish .\nENTRYPOINT [\"dotnet\", \"".data,
      Piece.lit A.data,
      Piece.lit ".dll\"]\n".data] := rfl
  rw [hsub]
  simp only [render, List.append_nil, List.append_assoc]
  rfl

theorem entrypoint_suffix_windows (B E S D F A C t : String)
    (ht : t.data = render windowsTemplatePieces)
    (hb : '$' ∉ B.data) (he : '$' ∉ E.data) (hs : '$' ∉ S.data)
    (hd : '$' ∉ D.data) (hf : '$' ∉ F.data) (ha : '$' ∉ A.data) :
    ∃ p, (applyTemplateReplacements B E S D F A C t).data
      = p ++ ("ENTRYPOINT [\"dotnet\", \"".data ++ (A.data ++ ".dll\"]\n".data)) := by
  refine ⟨"#Depending on the operating system of the host machines(s) that will build or run the containers, the image specified in the FROM statement may need to be changed.\n#For more information, please see https://aka.ms/containercompat\n\n".data
      ++ ("FROM ".data
      ++ (B.data
      ++ (" AS base\nWORKDIR /app\n".data
      ++ (E.data
      ++ ("\n\nFROM ".data
      ++ (S.data
      ++ (" AS build\nWORKDIR /src\n".data
      ++ (C.data
      ++ ("\nRUN dotnet restore \"".data
      ++ (D.data
      ++ ("/".data
      ++ (F.data
      ++ ("\"\nCOPY . .\nWORKDIR \"/src/".data
      ++ (D.data
      ++ ("\"\nRUN dotnet build \"".data
      ++ (F.data
      ++ ("\" -c Release -o /app/build\n\nFROM build AS publish\nRUN dotnet publish \"".data
      ++ (F.data
      ++ ("\" -c Release -o /app/publish\n\nFROM base AS final\nWORKDIR /app\nCOPY --from=publish /app/publish .\n".data))))))))))))))))))), ?_⟩
  rw [applyTemplateReplacements_data, ht,
    pipeline_render B.data E.data S.data D.data F.data A.data C.data
      ((contains_false_iff _ _).mpr hb) ((contains_false_iff _ _).mpr he)
      ((contains_false_iff _ _).mpr hs) ((contains_false_iff _ _).mpr hd)
      ((contains_false_iff _ _).mpr hf) ((contains_false_iff _ _).mpr ha)
      windowsTemplatePieces_all windowsTemplatePieces_sep]
  have hsub : substAllTemplate B.data E.data S.data D.data F.data A.data C.data
      windowsTemplatePieces
      = [Piece.lit "#Depending on the operating system of the host machines(s) that will build or run the containers, the image specified in the FROM statement may need to be changed.\n#For more information, please see https://aka.ms/containercompat\n\n".data,
      Piece.lit "FROM ".data,
      Piece.lit B.data,
      Piece.lit " AS base\nWORKDIR /app\n".data,
      Piece.lit E.data,
      Piece.lit "\n\nFROM ".data,
      Piece.lit S.data,
      Piece.lit " AS build\nWORKDIR /src\n".data,
      Piece.lit C.data,
      Piece.lit "\nRUN dotnet restore \"".data,
      Piece.lit D.data,
      Piece.lit "/".data,
      Piece.lit F.data,
      Piece.lit "\"\nCOPY . .\nWORKDIR \"/src/".data,
      Piece.lit D.data,
      Piece.lit "\"\nRUN dotnet build \"".data,
      Piece.lit F.data,
      Piece.lit "\" -c Release -o /app/build\n\nFROM build AS publish\nRUN dotnet publish \"".data,
      Piece.lit F.data,
      Piece.lit "\" -c Release -o /app/publish\n\nFROM base AS final\nWORKDIR /app\nCOPY --from=publish /app/publish .\nENTRYPOINT [\"dotnet\", \"".data,
      Piece.lit A.data,
      Piece.lit ".dll\"]\n".data] := rfl
  rw [hsub]
  simp only [render, List.append_nil, List.append_assoc]
  rfl

/-- Implication form of the ENTRYPOINT property: every successfully
generated Dockerfile ends with the entry point line for the basename of
the project path. -/
theorem genDockerFile_ok_entrypoint (sp platform : String) (os : Option String)
    (ports : Option (List Nat)) (version artifactName : String) (host : HostOS)
    (hos : os = some "Windows" ∨ os = some "Linux")
    (hplat : platform = "ASP.NET Core" ∨ platform = ".NET Core Console")
    (hsp : '$' ∉ sp.data) (han : '$' ∉ artifactName.data) :
    ∀ out, genDockerFile sp platform os ports version artifactName host = .ok out →
      ∃ p, out.data = p ++ ("ENTRYPOINT [\"dotnet\", \"".data
          ++ ((posixBasenameS sp).data ++ ".dll\"]\n".data)) := by
  intro out hout
  rcases hplat with rfl | rfl <;> rcases hos with rfl | rfl
  ·
    unfold genDockerFile at hout
    rw [if_neg (by simp : ¬((some "Windows" : Option String) ≠ some "Windows"
      ∧ (some "Windows" : Option String) ≠ some "Linux"))] at hout
    cases hv : semverParse (netCoreAppVersionOf version) with
    | none =>
      rw [hv] at hout
      simp only [] at hout
      exact Except.noConfusion hout
    | some v =>
      rw [hv] at hout
      simp only [] at hout
      cases hge : semverGte v ⟨2, 1, 0⟩ with
      | true =>
        rw [selectImageFormats_asp_ge hge] at hout
        simp only [] at hout
        rw [formatVersion_ok hv AspNetCoreRuntimeImageFormat,
          formatVersion_ok hv DotNetCoreSdkImageFormat] at hout
        simp only [] at hout
        rw [selectTemplate_asp_windows] at hout
        simp only [] at hout
        obtain rfl := renderDockerFile_ok hout
        exact entrypoint_suffix_windows _ _ _ _ _ _ _ _ aspNetCoreWindowsTemplate_pieces
          (imageName_noDollar (by decide) (tagForWindowsVersionOf_noDollar host _ v) v)
          (getExposeStatements_noDollar ports)
          (imageName_noDollar (by decide) (tagForWindowsVersionOf_noDollar host _ v) v)
          (posixDirname_noDollar hsp) (posixBasename_noDollar han)
          (posixBasename_noDollar hsp)
      | false =>
        rw [selectImageFormats_asp_lt hge] at hout
        simp only [] at hout
        rw [formatVersion_ok hv LegacyAspNetCoreRuntimeImageFormat,
          formatVersion_ok hv LegacyAspNetCoreSdkImageFormat] at hout
        simp only [] at hout
        rw [selectTemplate_asp_windows] at hout
        simp only [] at hout
        obtain rfl := renderDockerFile_ok hout
        exact entrypoint_suffix_windows _ _ _ _ _ _ _ _ aspNetCoreWindowsTemplate_pieces
          (imageName_noDollar (by decide) (tagForWindowsVersionOf_noDollar host _ v) v)
          (getExposeStatements_noDollar ports)
          (imageName_noDollar (by decide) (tagForWindowsVersionOf_noDollar host _ v) v)
          (posixDirname_noDollar hsp) (posixBasename_noDollar han)
          (posixBasename_noDollar hsp)
  ·
    unfold genDockerFile at hout
    rw [if_neg (by simp : ¬((some "Linux" : Option String) ≠ some "Windows"
      ∧ (some "Linux" : Option String) ≠ some "Linux"))] at hout
    cases hv : semverParse (netCoreAppVersionOf version) with
    | none =>
      rw [hv] at hout
      simp only [] at hout
      exact Except.noConfusion hout
    | some v =>
      rw [hv] at hout
      simp only [] at hout
      cases hge : semverGte v ⟨2, 1, 0⟩ with
      | true =>
        rw [selectImageFormats_asp_ge hge] at hout
        simp only [] at hout
        rw [formatVersion_ok hv AspNetCoreRuntimeImageFormat,
          formatVersion_ok hv DotNetCoreSdkImageFormat] at hout
        simp only [] at hout
        rw [selectTemplate_asp_linux] at hout
        simp only [] at hout
        obtain rfl := renderDockerFile_ok hout
        exact entrypoint_suffix_linux _ _ _ _ _ _ _ _ aspNetCoreLinuxTemplate_pieces
          (imageName_noDollar (by decide) (tagForWindowsVersionOf_noDollar host _ v) v)
          (getExposeStatements_noDollar ports)
          (imageName_noDollar (by decide) (tagForWindowsVersionOf_noDollar host _ v) v)
          (posixDirname_noDollar hsp) (posixBasename_noDollar han)
          (posixBasename_noDollar hsp)
      | false =>
        rw [selectImageFormats_asp_lt hge] at hout
        simp only [] at hout
        rw [formatVersion_ok hv LegacyAspNetCoreRuntimeImageFormat,
          formatVersion_ok hv LegacyAspNetCoreSdkImageFormat] at hout
        simp only [] at hout
        rw [selectTemplate_asp_linux] at hout
        simp only [] at hout
        obtain rfl := renderDockerFile_ok hout
        exact entrypoint_suffix_linux _ _ _ _ _ _ _ _ aspNetCoreLinuxTemplate_pieces
          (imageName_noDollar (by decide) (tagForWindowsVersionOf_noDollar host _ v) v)
          (getExposeStatements_noDollar ports)
          (imageName_noDollar (by decide) (tagForWindowsVersionOf_noDollar host _ v) v)
          (posixDirname_noDollar hsp) (posixBasename_noDollar han)
          (posixBasename_noDollar hsp)
  ·
    unfold genDockerFile at hout
    rw [if_neg (by simp : ¬((some "Windows" : Option String) ≠ some "Windows"
      ∧ (some "Windows" : Option String) ≠ some "Linux"))] at hout
    cases hv : semverParse (netCoreAppVersionOf version) with
    | none =>
      rw [hv] at hout
      simp only [] at hout
      exact Except.noConfusion hout
    | some v =>
      rw [hv] at hout
      simp only [] at hout
      cases hge : semverGte v ⟨2, 1, 0⟩ with
      | true =>
        rw [selectImageFormats_console_ge hge] at hout
        simp only [] at hout
        rw [formatVersion_ok hv DotNetCoreRuntimeImageFormat,
          formatVersion_ok hv DotNetCoreSdkImageFormat] at hout
        simp only [] at hout
        rw [selectTemplate_console_windows] at hout
        simp only [] at hout
        obtain rfl := renderDockerFile_ok hout
        exact entrypoint_suffix_windows _ _ _ _ _ _ _ _ dotNetCoreConsoleWindowsTemplate_pieces
          (imageName_noDollar (by decide) (tagForWindowsVersionOf_noDollar host _ v) v)
          (getExposeStatements_noDollar ports)
          (imageName_noDollar (by decide) (tagForWindowsVersionOf_noDollar host _ v) v)
          (posixDirname_noDollar hsp) (posixBasename_noDollar han)
          (posixBasename_noDollar hsp)
      | false =>
        rw [selectImageFormats_console_lt hge] at hout
        simp only [] at hout
        rw [formatVersion_ok hv LegacyDotNetCoreRuntimeImageFormat,
          formatVersion_ok hv LegacyDotNetCoreSdkImageFormat] at hout
        simp only [] at hout
        rw [selectTemplate_console_windows] at hout
        simp only [] at hout
        obtain rfl := renderDockerFile_ok hout
        exact entrypoint_suffix_windows _ _ _ _ _ _ _ _ dotNetCoreConsoleWindowsTemplate_pieces
          (imageName_noDollar (by decide) (tagForWindowsVersionOf_noDollar host _ v) v)
          (getExposeStatements_noDollar ports)
          (imageName_noDollar (by decide) (tagForWindowsVersionOf_noDollar host _ v) v)
          (posixDirname_noDollar hsp) (posixBasename_noDollar han)
          (posixBasename_noDollar hsp)
  ·
    unfold genDockerFile at hout
    rw [if_neg (by simp : ¬((some "Linux" : Option String) ≠ some "Windows"
      ∧ (some "Linux" : Option String) ≠ some "Linux"))] at hout
    cases hv : semverParse (netCoreAppVersionOf version) with
    | none =>
      rw [hv] at hout
      simp only [] at hout
      exact Except.noConfusion hout
    | some v =>
      rw [hv] at hout
      simp only [] at hout
      cases hge : semverGte v ⟨2, 1, 0⟩ with
      | true =>
        rw [selectImageFormats_console_ge hge] at hout
        simp only [] at hout
        rw [formatVersion_ok hv DotNetCoreRuntimeImageFormat,
          formatVersion_ok hv DotNetCoreSdkImageFormat] at hout
        simp only [] at hout
        rw [selectTemplate_console_linux] at hout
        simp only [] at hout
        obtain rfl := renderDockerFile_ok hout
        exact entrypoint_suffix_linux _ _ _ _ _ _ _ _ dotNetCoreConsoleLinuxTemplate_pieces
          (imageName_noDollar (by decide) (tagForWindowsVersionOf_noDollar host _ v) v)
          (getExposeStatements_noDollar ports)
          (imageName_noDollar (by decide) (tagForWindowsVersionOf_noDollar host _ v) v)
          (posixDirname_noDollar hsp) (posixBasename_noDollar han)
          (posixBasename_noDollar hsp)
      | false =>
        rw [selectImageFormats_console_lt hge] at hout
        simp only [] at hout
        rw [formatVersion_ok hv LegacyDotNetCoreRuntimeImageFormat,
          formatVersion_ok hv LegacyDotNetCoreSdkImageFormat] at hout
        simp only [] at hout
        rw [selectTemplate_console_linux] at hout
        simp only [] at hout
        obtain rfl := renderDockerFile_ok hout
        exact entrypoint_suffix_linux _ _ _ _ _ _ _ _ dotNetCoreConsoleLinuxTemplate_pieces
          (imageName_noDollar (by decide) (tagForWindowsVersionOf_noDollar host _ v) v)
          (getExposeStatements_noDollar ports)
          (imageName_noDollar (by decide) (tagForWindowsVersionOf_noDollar host _ v) v)
          (posixDirname_noDollar hsp) (posixBasename_noDollar han)
          (posixBasename_noDollar hsp)

/-- The ENTRYPOINT property of a generation outcome: a returned Dockerfile
ends with `ENTRYPOINT ["dotnet", "<basename of sp>.dll"]` and a newline;
nothing is claimed of a thrown error. -/
def entryOutcome (sp : String) (r : Except String String) : Prop :=
  match r with
  | .ok out => ∃ p, out.data
      = p ++ ("ENTRYPOINT [\"dotnet\", \"".data
          ++ ((posixBasenameS sp).data ++ ".dll\"]\n".data))
  | .error _ => True

/-- C8 (amended): for every Dockerfile successfully generated by
`genDockerFile` with valid os and platform, provided the path arguments
contain no `'$'` character, the file ends with the final stage's entry
point `ENTRYPOINT ["dotnet", "<serviceName>.dll"]`, where `<serviceName>`
is the basename of the (extension-free) project path — the project folder
never appears in the assembly name. -/
theorem claim_C8 (sp platform : String) (os : Option String)
    (ports : Option (List Nat)) (version artifactName : String) (host : HostOS)
    (hos : os = some "Windows" ∨ os = some "Linux")
    (hplat : platform = "ASP.NET Core" ∨ platform = ".NET Core Console")
    (hsp : '$' ∉ sp.data) (han : '$' ∉ artifactName.data) :
    entryOutcome sp (genDockerFile sp platform os ports version artifactName host) := by
  cases hgen : genDockerFile sp platform os ports version artifactName host with
  | ok out =>
    show entryOutcome sp (.ok out)
    unfold entryOutcome
    exact genDockerFile_ok_entrypoint sp platform os ports version artifactName host
      hos hplat hsp han out hgen
  | error e =>
    show entryOutcome sp (.error e)
    unfold entryOutcome
    trivial

set_option maxHeartbeats 4000000 in
theorem claim_C8_witness :
    entryOutcome "proj/MyApp"
      (genDockerFile "proj/MyApp" "ASP.NET Core" (some "Linux") (some [80, 443])
        "netcoreapp2.1" "proj/MyApp.csproj" ⟨false, false, false, false, false⟩) :=
  claim_C8 "proj/MyApp" "ASP.NET Core" (some "Linux") (some [80, 443])
    "netcoreapp2.1" "proj/MyApp.csproj" ⟨false, false, false, false, false⟩
    (Or.inr rfl) (Or.inl rfl) (by decide) (by decide)

/-- C8 as frozen is false: a service path that is literally the
`$copy_project_commands$` token survives the assembly-name substitution and
is then replaced by the COPY command text, so the generation SUCCEEDS yet
the entry point is not `ENTRYPOINT ["dotnet", "<serviceName>.dll"]` for
that service name. -/
theorem claim_C8_counterexample :
    ((genDockerFile "$copy_project_commands$" ".NET Core Console" (some "Linux") none
        "netcoreapp2.1" "a.csproj" ⟨false, false, false, false, false⟩).toOption.map
      (fun out => containsSub
        ("ENTRYPOINT [\"dotnet\", \"$copy_project_commands$.dll\"]").data out.data))
      = some false := by decide


/-- C5: the Dockerfile templates and image-format strings are module-level
constants that no operation mutates (they are embedded as fixed `def`s with
no state anywhere in the model), and `genDockerFile` is a pure function of
its arguments and the host-OS predicates: two calls with equal arguments
under the same host-OS state return identical strings. -/
theorem claim_C5 (sp₁ sp₂ platform₁ platform₂ : String) (os₁ os₂ : Option String)
    (ports₁ ports₂ : Option (List Nat)) (version₁ version₂ an₁ an₂ : String)
    (host₁ host₂ : HostOS)
    (h1 : sp₁ = sp₂) (h2 : platform₁ = platform₂) (h3 : os₁ = os₂)
    (h4 : ports₁ = ports₂) (h5 : version₁ = version₂) (h6 : an₁ = an₂)
    (h7 : host₁ = host₂) :
    genDockerFile sp₁ platform₁ os₁ ports₁ version₁ an₁ host₁
      = genDockerFile sp₂ platform₂ os₂ ports₂ version₂ an₂ host₂
    ∧ aspNetCoreLinuxTemplate = aspNetCoreLinuxTemplate
    ∧ aspNetCoreWindowsTemplate = aspNetCoreWindowsTemplate
    ∧ dotNetCoreConsoleLinuxTemplate = dotNetCoreConsoleLinuxTemplate
    ∧ dotNetCoreConsoleWindowsTemplate = dotNetCoreConsoleWindowsTemplate := by
  subst h1 h2 h3 h4 h5 h6 h7
  exact ⟨rfl, rfl, rfl, rfl, rfl⟩

theorem claim_C5_witness :
    genDockerFile "x" ".NET Core Console" (some "Linux") none "netcoreapp2.1" "x.csproj"
        ⟨false, false, false, false, false⟩
      = genDockerFile "x" ".NET Core Console" (some "Linux") none "netcoreapp2.1" "x.csproj"
        ⟨false, false, false, false, false⟩
    ∧ aspNetCoreLinuxTemplate = aspNetCoreLinuxTemplate
    ∧ aspNetCoreWindowsTemplate = aspNetCoreWindowsTemplate
    ∧ dotNetCoreConsoleLinuxTemplate = dotNetCoreConsoleLinuxTemplate
    ∧ dotNetCoreConsoleWindowsTemplate = dotNetCoreConsoleWindowsTemplate :=
  claim_C5 "x" "x" ".NET Core Console" ".NET Core Console" (some "Linux") (some "Linux")
    none none "netcoreapp2.1" "netcoreapp2.1" "x.csproj" "x.csproj"
    ⟨false, false, false, false, false⟩ ⟨false, false, false, false, false⟩
    rfl rfl rfl rfl rfl rfl rfl


/-! ## scaffoldNetCore (configureDotNetCore.ts lines 304-360)

The external effects of `scaffoldNetCore` (the OS and ports prompts, the
`**/*.@(c|f)sproj` glob, the quick pick among several project files, and
reading the project file) are modelled as pre-resolved fields of the
context record; the telemetry writes and the optional
`initializeForDebugging` side call do not affect the returned file list and
are not modelled.  The `path.join`/`path.relative` calls are modelled with
the posix algorithms (the code itself normalises backslashes to `/` before
generating, and the posix flavour is explicitly requested for the project
path). -/

/-- `path.posix.extname`: the suffix of the last path component from its
last dot, except for a dotfile's single leading dot and the `..`
component. -/
def posixExtname (p : List Char) : List Char :=
  let B := ((p.reverse.dropWhile (fun c => c = '/')).takeWhile (fun c => c ≠ '/')).reverse
  let revB := B.reverse
  let after := revB.takeWhile (fun c => c ≠ '.')
  if after.length = revB.length then []
  else if after.length + 1 = revB.length then []
  else if B = ['.', '.'] then []
  else '.' :: after.reverse

def posixExtnameS (p : String) : String := String.mk (posixExtname p.data)

/-- Components of the normalised path, processed with Node's
`normalizeString` rules: empty and `.` components vanish, `..` pops the
previous component, and leading `..`s survive only in relative paths. -/
def normComps (allowAboveRoot : Bool) : List (List Char) → List (List Char) → List (List Char)
  | [], acc => acc.reverse
  | c :: rest, acc =>
    if c = [] ∨ c = ['.'] then normComps allowAboveRoot rest acc
    else if c = ['.', '.'] then
      match acc with
      | [] => if allowAboveRoot then normComps allowAboveRoot rest [c]
              else normComps allowAboveRoot rest []
      | top :: acc' =>
        if top = ['.', '.'] then normComps allowAboveRoot rest (c :: acc)
        else normComps allowAboveRoot rest acc'
    else normComps allowAboveRoot rest (c :: acc)

/-- Split on `/`, giving one part per separator gap. -/
def splitSlash (p : List Char) : List (List Char) := splitOnCharL '/' p

/-- `path.posix.normalize`. -/
def posixNormalizeL (p : List Char) : List Char :=
  if p = [] then ['.']
  else
    let isAbsolute := p.head? = some '/'
    let trailingSep := p.getLast? = some '/'
    let s := List.intercalate ['/'] (normComps (!isAbsolute) (splitSlash p) [])
    if s = [] then
      if isAbsolute then ['/'] else if trailingSep then ['.', '/'] else ['.']
    else
      let s2 := if trailingSep then s ++ ['/'] else s
      if isAbsolute then '/' :: s2 else s2

/-- `path.posix.join` of two segments: empty segments are skipped, the rest
joined with `/` and normalised; `.` when nothing remains. -/
def posixJoin (a b : String) : String :=
  match (([a.data, b.data].filter (fun p => p ≠ []))) with
  | [] => "."
  | parts => String.mk (posixNormalizeL (List.intercalate ['/'] parts))

/-- `path.posix.resolve cwd p` for the two-argument uses here: make `p`
absolute against the (absolute) working directory and normalise without
keeping `..` above the root. -/
def posixResolve (cwd p : String) : String :=
  let joined := if p.data.head? = some '/' then p.data else cwd.data ++ '/' :: p.data
  let isAbs := joined.head? = some '/'
  let s := List.intercalate ['/'] (normComps (!isAbs) (splitSlash joined) [])
  if isAbs then String.mk ('/' :: s)
  else if s = [] then "." else String.mk s

/-- Drop the longest common prefix of two component lists. -/
def dropCommonPrefix : List (List Char) → List (List Char) → (List (List Char) × List (List Char))
  | a :: as, b :: bs => if a = b then dropCommonPrefix as bs else (a :: as, b :: bs)
  | as, bs => (as, bs)

/-- `path.posix.relative cwd fromP toP`: resolve both, drop the common
component prefix, then one `..` per remaining source component followed by
the remaining target components. -/
def posixRelative (cwd fromP toP : String) : String :=
  let f := posixResolve cwd fromP
  let t := posixResolve cwd toP
  if f = t then ""
  else
    let fc := (splitSlash f.data).filter (fun c => c ≠ [])
    let tc := (splitSlash t.data).filter (fun c => c ≠ [])
    let rest := dropCommonPrefix fc tc
    String.mk (List.intercalate ['/']
      (List.replicate rest.1.length ['.', '.'] ++ rest.2))

/-- `s.slice(0, -n)` as used on line 322: for `n = 0` JavaScript computes
`slice(0, -0) = slice(0, 0) = ""`; otherwise the last `n` characters are
dropped. -/
def jsSliceDropEnd (s : String) (n : Nat) : String :=
  if n = 0 then "" else String.mk (s.data.take (s.data.length - n))

/-- Greedy group of `/<TargetFramework>(.+)<\/TargetFramework/` after a
matched opening tag: the longest nonempty newline-free stretch followed by
the literal `</TargetFramework`. -/
def tfGroupAux (rest : List Char) : Nat → Option (List Char)
  | 0 => none
  | k + 1 =>
    if (dropPre "</TargetFramework".data (rest.drop (k + 1))).isSome then
      some (rest.take (k + 1))
    else tfGroupAux rest k

def tfGroup (rest : List Char) : Option (List Char) :=
  tfGroupAux rest (rest.takeWhile (fun c => c ≠ '\n' ∧ c ≠ '\r')).length

/-- Modelled from the spec: `extractRegExGroups(contents,
/<TargetFramework>(.+)<\/TargetFramework/, [''])` — the leftmost position
where the opening tag matches and the greedy group succeeds wins; `none`
models falling back to the `''` default. -/
def findTargetFrameworkL : List Char → Option (List Char)
  | [] => none
  | c :: cs =>
    match dropPre "<TargetFramework>".data (c :: cs) with
    | some rest =>
      match tfGroup rest with
      | some g => some g
      | none => findTargetFrameworkL cs
    | none => findTargetFrameworkL cs

def findTargetFramework (s : String) : Option String :=
  (findTargetFrameworkL s.data).map String.mk

/-- `/(\r\n){3,4}/g → "\r\n\r\n"` (line 341): count the run of CRLF pairs at
a position; three or more pairs collapse greedily four-at-a-time. -/
def countCRLF : List Char → Nat
  | '\r' :: '\n' :: rest => 1 + countCRLF rest
  | _ => 0

def collapseCRLFF : Nat → List Char → List Char
  | 0, s => s
  | _ + 1, [] => []
  | fuel + 1, c :: cs =>
    if countCRLF (c :: cs) ≥ 3 then
      '\r' :: '\n' :: '\r' :: '\n'
        :: collapseCRLFF fuel ((c :: cs).drop (2 * min (countCRLF (c :: cs)) 4))
    else c :: collapseCRLFF fuel cs

def collapseCRLF (s : List Char) : List Char := collapseCRLFF s.length s

/-- `/(\n){3,4}/g → "\n\n"` (line 342). -/
def collapseLFF : Nat → List Char → List Char
  | 0, s => s
  | _ + 1, [] => []
  | fuel + 1, c :: cs =>
    if c = '\n' ∧ 1 + (cs.takeWhile (fun d => d = '\n')).length ≥ 3 then
      '\n' :: '\n'
        :: collapseLFF fuel
          ((c :: cs).drop (min (1 + (cs.takeWhile (fun d => d = '\n')).length) 4))
    else c :: collapseLFF fuel cs

def collapseLF (s : List Char) : List Char := collapseLFF s.length s

/-- `ScaffoldFile` of scaffolding.ts (the optional `open` flag is renamed
`isOpen`: `open` is a Lean keyword; the unused `onSave` flag is omitted). -/
structure ScaffoldFile where
  fileName : String
  contents : String
  isOpen : Option Bool
deriving DecidableEq

/-- The scaffolder context with every external interaction pre-resolved:
`promptedOS`/`promptedPorts` are what the prompts would return when
consulted, `projectFiles` the glob result, `pickedProjectFile` the quick
pick choice used when several projects exist, `projFileContents` the bytes
read from the project file, and `cwd` the process working directory that
`path.relative` resolves against. -/
structure ScaffolderContext where
  os : Option String
  promptedOS : String
  ports : Option (List Nat)
  promptedPorts : List Nat
  platform : String
  rootFolder : String
  folderPath : String
  outputFolder : Option String
  cwd : String
  projectFiles : List String
  pickedProjectFile : String
  projFileContents : String
  host : HostOS

/-- `findCSProjOrFSProjFile` (lines 261-281): throws when the glob found
nothing, asks the user when it found several, returns the single one
otherwise. -/
def findCSProjOrFSProjFile (projectFiles : List String) (picked : String) :
    Except String String :=
  match projectFiles with
  | [] => .error "No .csproj or .fsproj file could be found. You need a C# or F# project file in the workspace to generate Docker files for the selected platform."
  | [p] => .ok p
  | _ => .ok picked

/-- Modelled from the spec: `genCommonDockerIgnoreFile` (configUtils.ts,
outside this snapshot) produces the common `.dockerignore` content for the
chosen platform; its exact text is opaque to every claim — only the
identity of the generating function matters. -/
def genCommonDockerIgnoreFile (platform : String) : String :=
  "**/.dockerignore\n**/.git\n**/.vscode\n**/Dockerfile*\n**/node_modules\n**/obj\n**/bin\n"

def scaffoldNetCore (context : ScaffolderContext) : Except String (List ScaffoldFile) :=
  Except.bind (findCSProjOrFSProjFile context.projectFiles context.pickedProjectFile)
    (fun rootRelativeProjectFileName =>
      Except.map
        (fun contents0 =>
          [ ⟨posixJoin (context.outputFolder.getD (posixDirnameS rootRelativeProjectFileName))
                "Dockerfile",
              String.mk (collapseLF (collapseCRLF contents0.data)),
              some true⟩,
            ⟨posixJoin (context.outputFolder.getD "") ".dockerignore",
              genCommonDockerIgnoreFile context.platform,
              none⟩ ])
        (genDockerFile
          (jsReplaceAll "\\" "/"
            (match context.outputFolder with
             | none => jsSliceDropEnd rootRelativeProjectFileName
                 (posixExtnameS rootRelativeProjectFileName).length
             | some out => posixRelative context.cwd out
                 (posixJoin context.rootFolder
                   (jsSliceDropEnd rootRelativeProjectFileName
                     (posixExtnameS rootRelativeProjectFileName).length))))
          context.platform
          (some (context.os.getD context.promptedOS))
          (match context.ports with
           | some ps => some ps
           | none => if context.platform = "ASP.NET Core" then some context.promptedPorts
                     else none)
          ((findTargetFramework context.projFileContents).getD "")
          (posixRelative context.cwd context.folderPath
            (posixJoin context.rootFolder rootRelativeProjectFileName))
          context.host))


/-! ## Claims C6 and C9 -/

theorem except_map_eq_ok {ε α β : Type} {x : Except ε α} {f : α → β} {b : β}
    (h : Except.map f x = .ok b) : ∃ a, x = .ok a ∧ b = f a := by
  cases x with
  | error e => simp [Except.map] at h
  | ok a =>
    refine ⟨a, rfl, ?_⟩
    have h2 : (Except.ok (f a) : Except ε β) = .ok b := by simpa [Except.map] using h
    injection h2 with h'
    exact h'.symm

/-- The shape of a successful scaffolding run once the project file is
resolved to `rootRel`: exactly the Dockerfile entry (in the output folder,
or the project file's directory, with the open flag set) followed by the
`.dockerignore` entry generated by `genCommonDockerIgnoreFile`. -/
def scaffoldOutcome (ctx : ScaffolderContext) (rootRel : String)
    (r : Except String (List ScaffoldFile)) : Prop :=
  match r with
  | .ok fs => ∃ dockerFileContents, fs =
      [⟨posixJoin (ctx.outputFolder.getD (posixDirnameS rootRel)) "Dockerfile",
          dockerFileContents, some true⟩,
       ⟨posixJoin (ctx.outputFolder.getD "") ".dockerignore",
          genCommonDockerIgnoreFile ctx.platform, none⟩]
  | .error _ => True

/-- C6: every successful run of `scaffoldNetCore` returns exactly two
files — a file named `Dockerfile` placed in the output folder (or, absent
an output folder, in the project file's directory) with the open flag set,
and a `.dockerignore` file whose contents come from
`genCommonDockerIgnoreFile` for the chosen platform — in that order. -/
theorem claim_C6 (ctx : ScaffolderContext) (rootRel : String)
    (hfind : findCSProjOrFSProjFile ctx.projectFiles ctx.pickedProjectFile = .ok rootRel) :
    scaffoldOutcome ctx rootRel (scaffoldNetCore ctx) := by
  cases hs : scaffoldNetCore ctx with
  | error e =>
    show scaffoldOutcome ctx rootRel (.error e)
    unfold scaffoldOutcome
    trivial
  | ok fs =>
    show scaffoldOutcome ctx rootRel (.ok fs)
    unfold scaffoldOutcome
    unfold scaffoldNetCore at hs
    rw [hfind] at hs
    simp only [Except.bind] at hs
    obtain ⟨c0, _, hfs⟩ := except_map_eq_ok hs
    exact ⟨String.mk (collapseLF (collapseCRLF c0.data)), hfs⟩

/-- A concrete scaffolder context used to instantiate `claim_C6`. -/
def ctxC6 : ScaffolderContext :=
  ⟨some "Linux", "Linux", some [80], [80, 443], "ASP.NET Core", "ws", "ws", none,
    "/", ["app/MyApp.csproj"], "app/MyApp.csproj",
    "<Project><TargetFramework>netcoreapp3.1</TargetFramework></Project>",
    ⟨false, false, false, false, false⟩⟩

theorem claim_C6_witness :
    scaffoldOutcome ctxC6 "app/MyApp.csproj" (scaffoldNetCore ctxC6) :=
  claim_C6 ctxC6 "app/MyApp.csproj" rfl

/-- C9: for every os value other than `'Windows'` or `'Linux'` (including
the undefined value, which prints as `undefined` in the message),
`genDockerFile` throws the `Unexpected OS` error before producing any
output; and `scaffoldNetCore` — whenever it reaches the generation step,
i.e. a project file was found — propagates the same error and returns no
files. -/
theorem claim_C9 :
    (∀ (sp platform : String) (os : Option String) (ports : Option (List Nat))
       (version artifactName : String) (host : HostOS),
      os ≠ some "Windows" → os ≠ some "Linux" →
      genDockerFile sp platform os ports version artifactName host
        = .error ("Unexpected OS \"" ++ osString os ++ "\""))
    ∧ (∀ ctx : ScaffolderContext, ctx.projectFiles ≠ [] →
      ctx.os.getD ctx.promptedOS ≠ "Windows" → ctx.os.getD ctx.promptedOS ≠ "Linux" →
      scaffoldNetCore ctx
        = .error ("Unexpected OS \"" ++ ctx.os.getD ctx.promptedOS ++ "\"")) := by
  have hgen : ∀ (sp platform : String) (os : Option String) (ports : Option (List Nat))
      (version artifactName : String) (host : HostOS),
      os ≠ some "Windows" → os ≠ some "Linux" →
      genDockerFile sp platform os ports version artifactName host
        = .error ("Unexpected OS \"" ++ osString os ++ "\"") := by
    intro sp platform os ports version artifactName host h1 h2
    unfold genDockerFile
    rw [if_pos ⟨h1, h2⟩]
  refine ⟨hgen, ?_⟩
  intro ctx hne h1 h2
  obtain ⟨r, hr⟩ : ∃ r, findCSProjOrFSProjFile ctx.projectFiles ctx.pickedProjectFile
      = .ok r := by
    cases hp : ctx.projectFiles with
    | nil => exact absurd hp hne
    | cons p rest =>
      cases rest with
      | nil => exact ⟨p, rfl⟩
      | cons q r2 => exact ⟨ctx.pickedProjectFile, rfl⟩
  unfold scaffoldNetCore
  rw [hr]
  simp only [Except.bind]
  have h1' : (some (ctx.os.getD ctx.promptedOS) : Option String) ≠ some "Windows" := by
    simpa using h1
  have h2' : (some (ctx.os.getD ctx.promptedOS) : Option String) ≠ some "Linux" := by
    simpa using h2
  rw [hgen _ _ _ _ _ _ _ h1' h2']
  rfl

theorem claim_C9_witness :
    genDockerFile "x" ".NET Core Console" none none "" "a.csproj"
        ⟨false, false, false, false, false⟩
      = .error "Unexpected OS \"undefined\""
    ∧ scaffoldNetCore
        ⟨some "macOS", "Linux", none, [80, 443], ".NET Core Console", "ws", "ws", none,
          "/", ["a.csproj"], "a.csproj", "", ⟨false, false, false, false, false⟩⟩
      = .error "Unexpected OS \"macOS\"" :=
  ⟨claim_C9.1 "x" ".NET Core Console" none none "" "a.csproj"
      ⟨false, false, false, false, false⟩ (by decide) (by decide),
   claim_C9.2
      ⟨some "macOS", "Linux", none, [80, 443], ".NET Core Console", "ws", "ws", none,
        "/", ["a.csproj"], "a.csproj", "", ⟨false, false, false, false, false⟩⟩
      (by decide) (by decide) (by decide)⟩


/-! ## The Azure extension polling loop
(src/tree/registries/azure/AzureAccountTreeItem.ts lines 45-61)

`refreshNodeWhenAzureExtensionIsInstalled` sets a flag after a 600000 ms
`setTimeout`, then loops `while (!timedout && !isExtensionInstalled)`
awaiting `delay(1000)` and re-checking
`extensions.getExtension('ms-vscode.azure-account') !== undefined`, and
finally calls `this.refresh()` exactly when `isExtensionInstalled` ended
up true.  Time is modelled as elapsed milliseconds: each `await
delay(1000)` advances the clock by 1000 and nothing else takes time, and
the timer callback has set `timedout` exactly when the clock reads 600000
or more at the moment the loop condition is evaluated.  The environment is
a function `installed : Nat → Bool` giving the installation state of the
companion extension at each instant. -/

/-- The `timedout` flag as read when `ms` milliseconds have elapsed: the
600000 ms (ten-minute) timer has fired. -/
def timedOut (ms : Nat) : Bool := decide (600000 ≤ ms)

/-- The observable outcome of one run of the polling method: how many
delay-and-check iterations the `while` loop performed, and whether
`this.refresh()` was invoked after it. -/
structure PollRun where
  iterations : Nat
  refreshInvoked : Bool

/-- The `while (!timedout && !isExtensionInstalled)` loop with `k`
iterations already completed (so the clock reads `1000 * k`), presented
with explicit fuel; `claim_C4` shows any fuel of at least 601 gives the
same run, so the fuel is a presentation device, not a semantic bound.  A
body run awaits `delay(1000)` (clock + 1000) and then samples `installed`;
the loop exits when the sample was true or the timeout flag is up, and
`refresh()` runs exactly when the last sample was true. -/
def pollLoopF (installed : Nat → Bool) : Nat → Nat → PollRun
  | 0, k => ⟨k, false⟩
  | fuel + 1, k =>
    if timedOut (1000 * k) then ⟨k, false⟩
    else if installed (1000 * (k + 1)) then ⟨k + 1, true⟩
    else pollLoopF installed fuel (k + 1)

/-- `refreshNodeWhenAzureExtensionIsInstalled`: run the loop from a fresh
start (`isExtensionInstalled = false`, clock at 0). -/
def refreshNodePoll (installed : Nat → Bool) : PollRun :=
  pollLoopF installed 601 0

theorem pollLoopF_succ (installed : Nat → Bool) (n k : Nat) :
    pollLoopF installed (n + 1) k
      = if timedOut (1000 * k) then ⟨k, false⟩
        else if installed (1000 * (k + 1)) then ⟨k + 1, true⟩
        else pollLoopF installed n (k + 1) := rfl

theorem pollLoopF_iterations_le (installed : Nat → Bool) :
    ∀ fuel k, k ≤ 600 → (pollLoopF installed fuel k).iterations ≤ 600 := by
  intro fuel
  induction fuel with
  | zero => intro k hk; exact hk
  | succ n ih =>
    intro k hk
    rw [pollLoopF_succ]
    cases ht : timedOut (1000 * k) with
    | true => exact hk
    | false =>
      have hk1 : k + 1 ≤ 600 := by
        have h6 : ¬ 600000 ≤ 1000 * k := by
          simpa [timedOut] using ht
        omega
      cases hi : installed (1000 * (k + 1)) with
      | true => exact hk1
      | false => exact ih (k + 1) hk1

theorem pollLoopF_fuel (installed : Nat → Bool) :
    ∀ fuel fuelB k, 601 ≤ fuel + k → 601 ≤ fuelB + k →
      pollLoopF installed fuel k = pollLoopF installed fuelB k := by
  intro fuel
  induction fuel with
  | zero =>
    intro fuelB k h hB
    cases fuelB with
    | zero => rfl
    | succ m =>
      have ht : timedOut (1000 * k) = true := by
        simp only [timedOut, decide_eq_true_eq]
        omega
      rw [pollLoopF_succ, ht, if_pos rfl]
      rfl
  | succ n ih =>
    intro fuelB k h hB
    cases fuelB with
    | zero =>
      have ht : timedOut (1000 * k) = true := by
        simp only [timedOut, decide_eq_true_eq]
        omega
      rw [pollLoopF_succ, ht, if_pos rfl]
      rfl
    | succ m =>
      rw [pollLoopF_succ installed n k, pollLoopF_succ installed m k]
      cases ht : timedOut (1000 * k) with
      | true => rfl
      | false =>
        cases hi : installed (1000 * (k + 1)) with
        | true => rfl
        | false => exact ih m (k + 1) (by omega) (by omega)

theorem pollLoopF_char (installed : Nat → Bool) :
    ∀ fuel k, (pollLoopF installed fuel k).refreshInvoked = false
      ∨ (k < (pollLoopF installed fuel k).iterations
         ∧ installed (1000 * (pollLoopF installed fuel k).iterations) = true) := by
  intro fuel
  induction fuel with
  | zero => intro k; exact Or.inl rfl
  | succ n ih =>
    intro k
    rw [pollLoopF_succ]
    cases ht : timedOut (1000 * k) with
    | true => exact Or.inl rfl
    | false =>
      cases hi : installed (1000 * (k + 1)) with
      | true => exact Or.inr ⟨Nat.lt_succ_self k, hi⟩
      | false =>
        rcases ih (k + 1) with hf | ⟨h1, h2⟩
        · exact Or.inl hf
        · exact Or.inr ⟨Nat.lt_of_succ_lt h1, h2⟩

/-- C4: the polling loop of `refreshNodeWhenAzureExtensionIsInstalled` is
a bounded poll: whatever the installation history of the
`ms-vscode.azure-account` extension, it performs at most 600
delay-and-check iterations (one 1000 ms delay per iteration, the 600000 ms
timeout flag ending the loop), the run does not depend on the fuel used to
present the recursion (any fuel of at least 601 gives the same run, so the
loop always terminates whether or not the extension is ever installed),
`refresh()` is invoked only if a check found the extension installed at
the time of the loop's last one-second sample, and every check happens
only after at least one delay. -/
theorem claim_C4 (installed : Nat → Bool) :
    (refreshNodePoll installed).iterations ≤ 600
    ∧ ((refreshNodePoll installed).refreshInvoked = true →
        installed (1000 * (refreshNodePoll installed).iterations) = true)
    ∧ ((refreshNodePoll installed).refreshInvoked = true →
        1 ≤ (refreshNodePoll installed).iterations)
    ∧ (∀ extra, pollLoopF installed (601 + extra) 0 = refreshNodePoll installed) := by
  refine ⟨pollLoopF_iterations_le installed 601 0 (by omega), ?_, ?_, ?_⟩
  · intro h
    rcases pollLoopF_char installed 601 0 with hf | ⟨_, hi⟩
    · rw [show pollLoopF installed 601 0 = refreshNodePoll installed from rfl] at hf
      rw [h] at hf
      exact Bool.noConfusion hf
    · exact hi
  · intro h
    rcases pollLoopF_char installed 601 0 with hf | ⟨h1, _⟩
    · rw [show pollLoopF installed 601 0 = refreshNodePoll installed from rfl] at hf
      rw [h] at hf
      exact Bool.noConfusion hf
    · exact h1
  · intro extra
    exact pollLoopF_fuel installed (601 + extra) 601 0 (by omega) (by omega)

theorem claim_C4_witness :
    (refreshNodePoll (fun _ : Nat => true)).iterations ≤ 600
    ∧ (fun _ : Nat => true)
        (1000 * (refreshNodePoll (fun _ : Nat => true)).iterations) = true
    ∧ 1 ≤ (refreshNodePoll (fun _ : Nat => true)).iterations
    ∧ pollLoopF (fun _ : Nat => true) (601 + 0) 0
        = refreshNodePoll (fun _ : Nat => true) :=
  ⟨(claim_C4 (fun _ : Nat => true)).1,
   (claim_C4 (fun _ : Nat => true)).2.1 (by decide),
   (claim_C4 (fun _ : Nat => true)).2.2.1 (by decide),
   (claim_C4 (fun _ : Nat => true)).2.2.2 0⟩

/-! ## Activation wiring (dockerExtension.ts lines 43-83)

`activate` receives the host extension context and pushes every
registration it makes into `ctx.subscriptions`: the telemetry `Reporter`,
a Dockerfile hover provider and completion provider, a compose-file (yaml)
hover provider and completion provider, sixteen `vscode-docker.*`
commands, the `docker-diagnostics` diagnostics collection, and three
workspace event subscriptions (the `onDid*` registrations receive
`ctx.subscriptions` as their disposables argument).  The
`vscode.workspace.textDocuments.forEach` call between the event
registrations schedules validation but registers nothing, so it does not
appear in the trace.  Each host registration is modelled as a
`Registration` value; the handler closures attached to commands and
providers are host-invoked behaviour outside the wiring and are not part
of the trace. -/

/-- A host document filter: language id, URI scheme, optional glob. -/
structure DocumentFilter where
  language : String
  scheme : String
  filePattern : Option String

/-- `COMPOSE_FILE_GLOB_PATTERN` (the braces of the source literal written
with character escapes). -/
def COMPOSE_FILE_GLOB_PATTERN : String := "**/[dD]ocker-[cC]ompose*.\x7byaml,yml\x7d"

/-- `DOCKERFILE_MODE_ID = { language: 'dockerfile', scheme: 'file' }`. -/
def DOCKERFILE_MODE_ID : DocumentFilter := ⟨"dockerfile", "file", none⟩

/-- `YAML_MODE_ID = { language: 'yaml', scheme: 'file', pattern:
COMPOSE_FILE_GLOB_PATTERN }`. -/
def YAML_MODE_ID : DocumentFilter := ⟨"yaml", "file", some COMPOSE_FILE_GLOB_PATTERN⟩

/-- One registration made against the host API during activation. -/
inductive Registration where
  | reporter : Registration
  | hoverProvider : DocumentFilter → Registration
  | completionItemProvider : DocumentFilter → String → Registration
  | command : String → Registration
  | diagnosticCollection : String → Registration
  | eventSubscription : String → Registration

/-- The host extension context, reduced to its subscriptions list. -/
structure ExtensionContext where
  subscriptions : List Registration

/-- `ctx.subscriptions.push(...)`. -/
def pushSubscription (c : ExtensionContext) (r : Registration) : ExtensionContext :=
  ⟨c.subscriptions ++ [r]⟩

/-- `activate`, line for line: each host registration pushed into the
context's subscriptions in source order. -/
def activate (ctx : ExtensionContext) : ExtensionContext :=
  let c1 := pushSubscription ctx .reporter
  let c2 := pushSubscription c1 (.hoverProvider DOCKERFILE_MODE_ID)
  let c3 := pushSubscription c2 (.completionItemProvider DOCKERFILE_MODE_ID ".")
  let c4 := pushSubscription c3 (.hoverProvider YAML_MODE_ID)
  let c5 := pushSubscription c4 (.completionItemProvider YAML_MODE_ID ".")
  let c6 := pushSubscription c5 (.command "vscode-docker.configure")
  let c7 := pushSubscription c6 (.command "vscode-docker.debug.configureLaunchJson")
  let c8 := pushSubscription c7 (.command "vscode-docker.image.build")
  let c9 := pushSubscription c8 (.command "vscode-docker.image.remove")
  let c10 := pushSubscription c9 (.command "vscode-docker.image.push")
  let c11 := pushSubscription c10 (.command "vscode-docker.image.tag")
  let c12 := pushSubscription c11 (.command "vscode-docker.container.start")
  let c13 := pushSubscription c12 (.command "vscode-docker.container.start.interactive")
  let c14 := pushSubscription c13 (.command "vscode-docker.container.start.azurecli")
  let c15 := pushSubscription c14 (.command "vscode-docker.container.stop")
  let c16 := pushSubscription c15 (.command "vscode-docker.container.show-logs")
  let c17 := pushSubscription c16 (.command "vscode-docker.container.open-shell")
  let c18 := pushSubscription c17 (.command "vscode-docker.compose.up")
  let c19 := pushSubscription c18 (.command "vscode-docker.compose.down")
  let c20 := pushSubscription c19 (.command "vscode-docker.deploy")
  let c21 := pushSubscription c20 (.command "vscode-docker.system.prune")
  let c22 := pushSubscription c21 (.diagnosticCollection "docker-diagnostics")
  let c23 := pushSubscription c22 (.eventSubscription "onDidChangeTextDocument")
  let c24 := pushSubscription c23 (.eventSubscription "onDidOpenTextDocument")
  pushSubscription c24 (.eventSubscription "onDidCloseTextDocument")

/-- The command identifiers among a registration trace, in order. -/
def commandNames (rs : List Registration) : List String :=
  rs.filterMap (fun r => match r with | .command n => some n | _ => none)

/-- The hover-provider document filters among a registration trace. -/
def hoverFilters (rs : List Registration) : List DocumentFilter :=
  rs.filterMap (fun r => match r with | .hoverProvider f => some f | _ => none)

/-- The completion-provider document filters and trigger characters among
a registration trace. -/
def completionFilters (rs : List Registration) : List (DocumentFilter × String) :=
  rs.filterMap
    (fun r => match r with | .completionItemProvider f t => some (f, t) | _ => none)

/-- The names of the diagnostics collections among a registration trace. -/
def diagnosticNames (rs : List Registration) : List String :=
  rs.filterMap (fun r => match r with | .diagnosticCollection n => some n | _ => none)

/-- C7: a single call to `activate` pushes into the context's
subscriptions, in order, the telemetry reporter, a Dockerfile hover
provider and completion provider, a compose-file (yaml) hover provider and
completion provider, one command per listed `vscode-docker.*` identifier
(sixteen of them, each exactly once), the diagnostics collection named
`docker-diagnostics`, and the three workspace event subscriptions — and
nothing else. -/
theorem claim_C7 (ctx : ExtensionContext) :
    (activate ctx).subscriptions = ctx.subscriptions ++
      [ .reporter,
        .hoverProvider DOCKERFILE_MODE_ID,
        .completionItemProvider DOCKERFILE_MODE_ID ".",
        .hoverProvider YAML_MODE_ID,
        .completionItemProvider YAML_MODE_ID ".",
        .command "vscode-docker.configure",
        .command "vscode-docker.debug.configureLaunchJson",
        .command "vscode-docker.image.build",
        .command "vscode-docker.image.remove",
        .command "vscode-docker.image.push",
        .command "vscode-docker.image.tag",
        .command "vscode-docker.container.start",
        .command "vscode-docker.container.start.interactive",
        .command "vscode-docker.container.start.azurecli",
        .command "vscode-docker.container.stop",
        .command "vscode-docker.container.show-logs",
        .command "vscode-docker.container.open-shell",
        .command "vscode-docker.compose.up",
        .command "vscode-docker.compose.down",
        .command "vscode-docker.deploy",
        .command "vscode-docker.system.prune",
        .diagnosticCollection "docker-diagnostics",
        .eventSubscription "onDidChangeTextDocument",
        .eventSubscription "onDidOpenTextDocument",
        .eventSubscription "onDidCloseTextDocument" ]
    ∧ hoverFilters (activate ⟨[]⟩).subscriptions = [DOCKERFILE_MODE_ID, YAML_MODE_ID]
    ∧ completionFilters (activate ⟨[]⟩).subscriptions
        = [(DOCKERFILE_MODE_ID, "."), (YAML_MODE_ID, ".")]
    ∧ commandNames (activate ⟨[]⟩).subscriptions
        = [ "vscode-docker.configure",
            "vscode-docker.debug.configureLaunchJson",
            "vscode-docker.image.build",
            "vscode-docker.image.remove",
            "vscode-docker.image.push",
            "vscode-docker.image.tag",
            "vscode-docker.container.start",
            "vscode-docker.container.start.interactive",
            "vscode-docker.container.start.azurecli",
            "vscode-docker.container.stop",
            "vscode-docker.container.show-logs",
            "vscode-docker.container.open-shell",
            "vscode-docker.compose.up",
            "vscode-docker.compose.down",
            "vscode-docker.deploy",
            "vscode-docker.system.prune" ]
    ∧ diagnosticNames (activate ⟨[]⟩).subscriptions = ["docker-diagnostics"] := by
  refine ⟨?_, rfl, rfl, rfl, rfl⟩
  simp [activate, pushSubscription, List.append_assoc]


end VSCodeDocker
